import Mathlib

/-!
Verification of the chugsplash deployment bundling and batch-execution engine.

The definitions below are a shallow embedding of:
* `packages/plugins/contracts/foundry/Sphinx.sol` (batch executor, deployment
  state machine driver, auth-leaf loop);
* `packages/plugins/src/cli/propose/index.ts` (proposal assembler);
* `packages/core/src/config/utils.ts` (readable actions, CREATE3 addresses);
* the hardhat `monitorExecution` task (execution monitor).

External collaborators (the on-chain SphinxManager / SphinxAuth contracts, the
RPC layer, keccak256) are modelled as explicit function parameters ("oracles"):
each external call made by the embedded code consults the oracle and appends an
`Event` to the trace, so theorems can speak about exactly which transactions
are submitted and in which order.  Helper functions of this repository whose
source is not part of the verified snapshot (for example functions of
`SphinxUtils.sol` and of the core utils) are modelled from the specification
and carry a doc comment saying so.
-/

namespace Chugsplash

/-- Deployment status enum from SphinxDataTypes.sol. -/
inductive DeploymentStatus
  | EMPTY
  | APPROVED
  | INITIAL_ACTIONS_EXECUTED
  | PROXIES_INITIATED
  | SET_STORAGE_ACTIONS_EXECUTED
  | COMPLETED
  | FAILED
  | CANCELLED
  deriving DecidableEq

/-- Action type enum from SphinxDataTypes.sol. -/
inductive SphinxActionType
  | SET_STORAGE
  | DEPLOY_CONTRACT
  | CALL
  deriving DecidableEq

/-- Raw on-chain action: the tuple actually submitted to the SphinxManager.
    The opaque encoded payload is irrelevant to the claims and is elided. -/
structure RawSphinxAction where
  actionType : SphinxActionType
  index : Nat
  deriving DecidableEq

/-- A raw action bundled with its Merkle proof (the proof itself is opaque to
    the execution driver and is elided). -/
structure BundledSphinxAction where
  action : RawSphinxAction
  deriving DecidableEq

/-- Per-chain deployment state read back from the SphinxManager contract. -/
structure DeploymentState where
  status : DeploymentStatus
  actionsExecuted : Nat
  deriving DecidableEq

/-- Auth leaf type enum from SphinxDataTypes.sol. -/
inductive AuthLeafType
  | SETUP
  | PROPOSE
  | UPGRADE_MANAGER_AND_AUTH_IMPL
  | APPROVE_DEPLOYMENT
  | CANCEL_ACTIVE_DEPLOYMENT
  deriving DecidableEq

/-- An auth leaf; only its index is consulted by the execution driver. -/
structure AuthLeaf where
  index : Nat
  deriving DecidableEq

/-- An auth leaf bundled with its type tag (the Merkle proof is elided). -/
structure BundledAuthLeaf where
  leaf : AuthLeaf
  leafTypeEnum : AuthLeafType
  deriving DecidableEq

/-- Human-readable report of one action, produced off-chain by
    getReadableActions and consumed by Sphinx.sol for error reporting. -/
structure HumanReadableAction where
  reason : String
  actionIndex : Nat
  deriving DecidableEq

/-- The per-chain bundle handed to sphinxDeployOnNetwork.  The target bundle
    (proxies to upgrade) is opaque to the claims and is elided. -/
structure BundleInfo where
  networkName : String
  configUri : String
  authLeafs : List BundledAuthLeaf
  actions : List BundledSphinxAction
  humanReadableActions : List HumanReadableAction
  deriving DecidableEq

/-- One observable external interaction of the execution driver. -/
inductive Event
  | findMaxBatchSizeCall (numActions : Nat) (gasBudget : Nat)
  | executeInitialActionsCall (indices : List Nat)
  | setStorageCall (indices : List Nat)
  | initiateUpgradeCall
  | finalizeUpgradeCall
  | registerProjectCall
  | authLeafCall (t : AuthLeafType) (index : Nat)
  | logMessage (msg : String)
  deriving DecidableEq

/-- Result of one batched call against the SphinxManager, as observed by the
    driver: either the call reverted (for executeInitialActions the failing
    action index is decoded from the revert data) or it succeeded and the
    deployment state re-read afterwards has the given status. -/
inductive BatchOutcome
  | reverted (failureIndex : Nat)
  | succeeded (statusAfter : DeploymentStatus)
  deriving DecidableEq

/-- Modelled from the spec: SphinxUtils.removeExecutedActions is not under the
    verified source snapshot.  Per the resume rule of the spec, the actions
    whose index is already covered by the on-chain actionsExecuted counter are
    removed and the remaining actions are kept in their original order. -/
def removeExecutedActions (actions : List BundledSphinxAction)
    (actionsExecuted : Nat) : List BundledSphinxAction :=
  actions.filter (fun a => decide (actionsExecuted ≤ a.action.index))

/-- Modelled from the spec: SphinxUtils.splitActions is not under the verified
    source snapshot.  It partitions the bundled actions into the initial
    (deploy-contract / call) actions and the set-storage actions, preserving
    the original order inside each part. -/
def splitActions (actions : List BundledSphinxAction) :
    List BundledSphinxAction × List BundledSphinxAction :=
  (actions.filter (fun a => decide (a.action.actionType ≠ SphinxActionType.SET_STORAGE)),
   actions.filter (fun a => decide (a.action.actionType = SphinxActionType.SET_STORAGE)))

/-- The while-loop of Sphinx.sol sphinxExecuteBatchActions, written as a
    recursion on fuel.  The loop variable pair (filteredActions, executed) of
    the source is represented by the single list `remaining`, which stands for
    `filteredActions` with its first `executed` elements dropped, so the two
    slices taken in the source become `remaining` itself and
    `remaining.take batchSize`.  `findMax` models SphinxUtils.findMaxBatchSize
    and `outcome` models the SphinxManager's response to the batched call of
    the current iteration (subsequent iterations shift the oracle).  If the
    batch size search keeps returning 0 the source loop never advances; the
    fuel models that divergence as an error result. -/
def execBatchLoop (findMax : List BundledSphinxAction → Nat → Nat)
    (isSetStorageActionArray : Bool) (bufferedGasLimit : Nat) :
    Nat → (Nat → BatchOutcome) → List BundledSphinxAction → DeploymentStatus →
    List Event × Except String (DeploymentStatus × Nat)
  | 0, _, _, _ => ([], .error "batch loop did not advance")
  | fuel + 1, outcome, remaining, st =>
    if remaining.isEmpty then ([], .ok (st, 0))
    else
      let gasBudget := bufferedGasLimit - bufferedGasLimit * 20 / 100
      let batchSize := findMax remaining gasBudget
      let batch := remaining.take batchSize
      let indices := batch.map (fun a => a.action.index)
      let evCall := if isSetStorageActionArray then Event.setStorageCall indices
                    else Event.executeInitialActionsCall indices
      let evs := [Event.findMaxBatchSizeCall remaining.length gasBudget, evCall]
      match outcome 0 with
      | .reverted failureIndex =>
        if isSetStorageActionArray then
          (evs, .error "setStorage reverted")
        else
          (evs, .ok (DeploymentStatus.FAILED, failureIndex))
      | .succeeded statusAfter =>
        if statusAfter = DeploymentStatus.FAILED then (evs, .ok (statusAfter, 0))
        else
          let rest := execBatchLoop findMax isSetStorageActionArray bufferedGasLimit
            fuel (fun n => outcome (n + 1)) (remaining.drop batchSize) statusAfter
          (evs ++ rest.1, rest.2)

/-- Sphinx.sol sphinxExecuteBatchActions: read the deployment state from the
    manager (modelled by `entryState`), drop the already-executed actions, and
    execute the rest in gas-bounded batches.  Returns the final deployment
    status together with the failing action index when a batch reverted. -/
def sphinxExecuteBatchActions (findMax : List BundledSphinxAction → Nat → Nat)
    (outcome : Nat → BatchOutcome) (entryState : DeploymentState)
    (bundledActions : List BundledSphinxAction)
    (isSetStorageActionArray : Bool) (bufferedGasLimit : Nat) :
    List Event × Except String (DeploymentStatus × Nat) :=
  let filteredActions := removeExecutedActions bundledActions entryState.actionsExecuted
  if filteredActions.isEmpty then ([], .ok (entryState.status, 0))
  else
    execBatchLoop findMax isSetStorageActionArray bufferedGasLimit
      (filteredActions.length + 1) outcome filteredActions entryState.status

/-- The empty HumanReadableAction returned by Sphinx.sol on success. -/
def emptyHumanReadableAction : HumanReadableAction :=
  { reason := "", actionIndex := 0 }

/-- Sphinx.sol sphinxExecuteDeployment: split the bundle's actions, execute
    the initial actions in batches, then initiate the upgrade, execute the
    set-storage actions in batches, and finalize the upgrade.  The two
    `outcome` oracles model the manager's responses during the two batched
    phases and the two entry states model the state reads at the start of the
    two sphinxExecuteBatchActions invocations. -/
def sphinxExecuteDeployment (findMax : List BundledSphinxAction → Nat → Nat)
    (outcomeInitial outcomeSetStorage : Nat → BatchOutcome)
    (entryInitial entrySetStorage : DeploymentState)
    (bundleInfo : BundleInfo) (blockGasLimit : Nat) :
    List Event × Except String (Bool × HumanReadableAction) :=
  let initialActions := (splitActions bundleInfo.actions).1
  let setStorageActions := (splitActions bundleInfo.actions).2
  let bufferedGasLimit := ((blockGasLimit / 2) * 120) / 100
  let phase₁ := sphinxExecuteBatchActions findMax outcomeInitial entryInitial
    initialActions false bufferedGasLimit
  match phase₁.2 with
  | .error e => (phase₁.1, .error e)
  | .ok statusIndex =>
    if statusIndex.1 = DeploymentStatus.FAILED then
      if hlt : statusIndex.2 < bundleInfo.humanReadableActions.length then
        (phase₁.1, .ok (false, bundleInfo.humanReadableActions.get ⟨statusIndex.2, hlt⟩))
      else
        (phase₁.1, .error "humanReadableActions index out of bounds")
    else if statusIndex.1 = DeploymentStatus.COMPLETED then
      (phase₁.1, .ok (true, emptyHumanReadableAction))
    else
      let phase₂ := sphinxExecuteBatchActions findMax outcomeSetStorage entrySetStorage
        setStorageActions true bufferedGasLimit
      match phase₂.2 with
      | .error e =>
        (phase₁.1 ++ [Event.initiateUpgradeCall] ++ phase₂.1, .error e)
      | .ok _ =>
        (phase₁.1 ++ [Event.initiateUpgradeCall] ++ phase₂.1 ++ [Event.finalizeUpgradeCall],
         .ok (true, emptyHumanReadableAction))

/-- The auth-leaf loop of Sphinx.sol sphinxDeployOnNetwork: leaves whose index
    is already covered by the on-chain leafsExecuted counter are skipped, the
    remaining leaves are submitted in order, and executing an
    APPROVE_DEPLOYMENT leaf records the local status as APPROVED. -/
def authLeafLoop (leafsExecuted : Nat) :
    DeploymentStatus → List BundledAuthLeaf → List Event × DeploymentStatus
  | st, [] => ([], st)
  | st, l :: rest =>
    if leafsExecuted > l.leaf.index then authLeafLoop leafsExecuted st rest
    else
      let st' := if l.leafTypeEnum = AuthLeafType.APPROVE_DEPLOYMENT then
        DeploymentStatus.APPROVED else st
      let tail := authLeafLoop leafsExecuted st' rest
      (Event.authLeafCall l.leafTypeEnum l.leaf.index :: tail.1, tail.2)

/-- Sphinx.sol sphinxDeployOnNetwork, with the signature mechanics, project
    registration details and mode-specific claiming elided (they submit no
    action and are irrelevant to the claims; project registration is kept as a
    single event).  `deploymentState` models the manager's state for the
    bundle's deployment id and `leafsExecuted` models the auth contract's
    count of already-executed auth leaves. -/
def sphinxDeployOnNetwork (findMax : List BundledSphinxAction → Nat → Nat)
    (outcomeInitial outcomeSetStorage : Nat → BatchOutcome)
    (entryInitial entrySetStorage : DeploymentState)
    (deploymentState : DeploymentState) (leafsExecuted : Nat)
    (bundleInfo : BundleInfo) (blockGasLimit : Nat) :
    List Event × Except String Unit :=
  if bundleInfo.authLeafs.isEmpty then
    ([Event.logMessage ("Sphinx: Nothing to execute on " ++ bundleInfo.networkName
        ++ ". Exiting early.")], .ok ())
  else
    if deploymentState.status = DeploymentStatus.COMPLETED then
      ([Event.registerProjectCall,
        Event.logMessage ("Sphinx: Deployment was already completed on "
          ++ bundleInfo.networkName ++ ". Exiting early.")], .ok ())
    else
      let leafPhase :=
        if deploymentState.status = DeploymentStatus.EMPTY then
          authLeafLoop leafsExecuted deploymentState.status bundleInfo.authLeafs
        else ([], deploymentState.status)
      if leafPhase.2 = DeploymentStatus.APPROVED
          ∨ leafPhase.2 = DeploymentStatus.INITIAL_ACTIONS_EXECUTED
          ∨ leafPhase.2 = DeploymentStatus.PROXIES_INITIATED
          ∨ leafPhase.2 = DeploymentStatus.SET_STORAGE_ACTIONS_EXECUTED then
        let execution := sphinxExecuteDeployment findMax outcomeInitial outcomeSetStorage
          entryInitial entrySetStorage bundleInfo blockGasLimit
        match execution.2 with
        | .error e => (Event.registerProjectCall :: leafPhase.1 ++ execution.1, .error e)
        | .ok success =>
          if success.1 then
            (Event.registerProjectCall :: leafPhase.1 ++ execution.1, .ok ())
          else
            (Event.registerProjectCall :: leafPhase.1 ++ execution.1,
             .error ("Sphinx: failed to execute deployment because the following action reverted: "
               ++ success.2.reason))
      else
        (Event.registerProjectCall :: leafPhase.1, .ok ())

/-- The action indices submitted to the SphinxManager by a trace, in order. -/
def submittedActionIndices : List Event → List Nat
  | [] => []
  | Event.executeInitialActionsCall is :: rest => is ++ submittedActionIndices rest
  | Event.setStorageCall is :: rest => is ++ submittedActionIndices rest
  | _ :: rest => submittedActionIndices rest

/-- The number of batched action submissions in a trace. -/
def submissionCount : List Event → Nat
  | [] => 0
  | Event.executeInitialActionsCall _ :: rest => submissionCount rest + 1
  | Event.setStorageCall _ :: rest => submissionCount rest + 1
  | _ :: rest => submissionCount rest

/-- The list remaining after the batch loop has taken `j` batches, mirroring
    exactly the drops performed by execBatchLoop. -/
def dropBatches (findMax : List BundledSphinxAction → Nat → Nat) (gasBudget : Nat) :
    Nat → List BundledSphinxAction → List BundledSphinxAction
  | 0, l => l
  | j + 1, l =>
    if l.isEmpty then []
    else dropBatches findMax gasBudget j (l.drop (findMax l gasBudget))

/-! ### packages/core/src/config/utils.ts -/

/-- A decoded argument value of an action: either an atomic rendering or a
    nested collection of values (TypeScript decoded variables are arbitrarily
    nested). -/
inductive TsVariable
  | lit (s : String)
  | nested (xs : List TsVariable)

/-- The decoded, reporting-only view of an action. -/
structure DecodedAction where
  referenceName : String
  functionName : String
  vars : List TsVariable
  address : String

/-- A collected action input on the TypeScript side; fields not consumed by
    the claims are elided. -/
structure ActionInput where
  index : Nat
  decodedAction : DecodedAction

/-- Comma-separated rendering of a list of strings. -/
def joinStrings : List String → String
  | [] => ""
  | [s] => s
  | s :: rest => s ++ ", " ++ joinStrings rest

/-- Modelled from the spec: prettyFunctionCall lives in the core utils, which
    are not under the verified source snapshot.  It renders a value tree,
    replacing values nested beyond `depth` levels by an ellipsis. -/
def prettyVariable : Nat → TsVariable → String
  | 0, _ => "..."
  | _, .lit s => s
  | d + 1, .nested xs => "[" ++ joinStrings (xs.map (prettyVariable d)) ++ "]"

/-- Modelled from the spec: prettyFunctionCall renders a human-readable call
    preview from the reference name, address, function name and decoded
    argument values, showing at most `argCount` arguments and truncating the
    values nested beyond `depth` levels. -/
def prettyFunctionCall (referenceName address functionName : String)
    (vars : List TsVariable) (depth argCount : Nat) : String :=
  let shown := (vars.take argCount).map (prettyVariable depth)
  let ellipsis := if argCount < vars.length then ", ..." else ""
  referenceName ++ "<" ++ address ++ ">." ++ functionName
    ++ "(" ++ joinStrings shown ++ ellipsis ++ ")"

/-- getReadableActions from packages/core/src/config/utils.ts: render each
    action's decodedAction with depth 5 and argument count 3, and pair the
    rendering with the action's index. -/
def getReadableActions (actionInputs : List ActionInput) : List HumanReadableAction :=
  actionInputs.map fun action =>
    { reason := prettyFunctionCall action.decodedAction.referenceName
        action.decodedAction.address action.decodedAction.functionName
        action.decodedAction.vars 5 3,
      actionIndex := action.index }

/-- Byte strings, one Nat per byte. -/
abbrev Bytes := List Nat

/-- The hard-coded CREATE3 proxy bytecode 0x67363d3d37363d34f03d5260086018f3
    from getCreate3Address. -/
def proxyBytecode : Bytes :=
  [0x67, 0x36, 0x3d, 0x3d, 0x37, 0x36, 0x3d, 0x34, 0xf0, 0x3d, 0x52, 0x60, 0x08, 0x60, 0x18, 0xf3]

/-- The ethers getCreate2Address collaborator: the last 20 bytes of
    keccak256(0xff ++ deployer ++ salt ++ initCodeHash).  The keccak256 hash
    itself is an external collaborator and is a parameter. -/
def getCreate2Address (keccak256 : Bytes → Bytes)
    (deployer salt initCodeHash : Bytes) : Bytes :=
  (keccak256 ([0xff] ++ deployer ++ salt ++ initCodeHash)).drop 12

/-- getCreate3Address from packages/core/src/config/utils.ts: hash the CREATE3
    proxy deployed by CREATE2, then take the last 20 bytes of
    keccak256(0xd694 ++ proxyAddress ++ 0x01) and return the checksummed
    address.  keccak256 and the checksum encoding (ethers getAddress) are
    external collaborators passed as parameters. -/
def getCreate3Address (keccak256 : Bytes → Bytes) (getAddress : Bytes → String)
    (deployer salt : Bytes) : String :=
  let proxyAddress := getCreate2Address keccak256 deployer salt (keccak256 proxyBytecode)
  let addressHash := keccak256 ([0xd6, 0x94] ++ proxyAddress ++ [0x01])
  let last20Bytes := addressHash.drop 12
  getAddress last20Bytes

/-- getCreate3Salt from packages/core/src/config/utils.ts: keccak256 of the
    ABI encoding of the (string, bytes32) pair.  The ABI encoder is an
    external collaborator passed as a parameter. -/
def getCreate3Salt (keccak256 : Bytes → Bytes) (abiEncode : String → Bytes → Bytes)
    (referenceName : String) (userSalt : Bytes) : Bytes :=
  keccak256 (abiEncode referenceName userSalt)

/-- getTargetAddress from packages/core/src/config/utils.ts. -/
def getTargetAddress (keccak256 : Bytes → Bytes) (getAddress : Bytes → String)
    (abiEncode : String → Bytes → Bytes)
    (managerAddress : Bytes) (referenceName : String) (userSalt : Bytes) : String :=
  let targetSalt := getCreate3Salt keccak256 abiEncode referenceName userSalt
  getCreate3Address keccak256 getAddress managerAddress targetSalt

/-! ### packages/plugins/src/cli/propose/index.ts -/

/-- The per-project configuration fields carried by every per-chain network
    config and expected to be identical across chains. -/
structure NewConfig where
  orgId : String
  projectName : String
  owners : List String
  threshold : Nat
  saltNonce : Nat
  deriving DecidableEq

/-- Initial chain state recorded in a network config. -/
structure InitialChainState where
  isExecuting : Bool
  deriving DecidableEq

/-- A per-chain network config as consumed by propose; fields not consumed by
    the claims are elided.  The action inputs are represented by their
    indices only (their payloads are irrelevant to the assembler). -/
structure NetworkConfig where
  chainId : Nat
  actionInputs : List Nat
  newConfig : NewConfig
  safeAddress : String
  moduleAddress : String
  safeInitData : String
  initialState : InitialChainState
  deriving DecidableEq

instance : Inhabited NetworkConfig :=
  ⟨{ chainId := 0, actionInputs := [],
     newConfig := { orgId := "", projectName := "", owners := [], threshold := 0, saltNonce := 0 },
     safeAddress := "", moduleAddress := "", safeInitData := "",
     initialState := { isExecuting := false } }⟩

/-- Merkle leaf type enum from the sphinx contracts package. -/
inductive SphinxLeafType
  | APPROVE
  | EXECUTE
  | CANCEL
  deriving DecidableEq

/-- A Merkle leaf together with its proof; the proof and the encoded payload
    are opaque to the assembler and are elided. -/
structure SphinxLeafWithProof where
  leafType : SphinxLeafType
  chainId : Nat
  index : Nat
  deriving DecidableEq

/-- A Merkle tree as consumed by the proposal assembler. -/
structure SphinxMerkleTree where
  root : String
  leavesWithProofs : List SphinxLeafWithProof
  deriving DecidableEq

/-- The entry of a proposal's projectDeployments array. -/
structure ProjectDeployment where
  chainId : Nat
  deploymentId : String
  name : String
  isExecuting : Bool
  deriving DecidableEq

/-- The entry of a proposal's tree.chainStatus array. -/
structure ChainStatusEntry where
  chainId : Nat
  numLeaves : Nat
  deriving DecidableEq

/-- The distinct failure modes of propose, one constructor per throw site
    relevant to the claims. -/
inductive ProposeError
  | inconsistentConfig
  | multipleApprovalLeaves (chainId : Nat)
  deriving DecidableEq

/-- The observable external interactions of propose. -/
inductive ProposeEvent
  | buildMerkleTree
  | simulateGasEstimates
  | storeDeploymentConfig
  | relayProposal
  deriving DecidableEq

/-- The proposal payload assembled by propose; fields not consumed by the
    claims are elided. -/
structure ProposalRequest where
  chainIds : List Nat
  deploymentName : String
  owners : List String
  threshold : Nat
  safeAddress : String
  moduleAddress : String
  safeInitData : String
  projectDeployments : List ProjectDeployment
  treeRoot : String
  chainStatus : List ChainStatusEntry
  deriving DecidableEq

/-- Modelled from the spec: elementsEqual lives in the core utils, which are
    not under the verified source snapshot.  It checks that all elements of
    the list are identical. -/
def elementsEqual {α : Type} [DecidableEq α] : List α → Bool
  | [] => true
  | x :: xs => xs.all (fun y => decide (y = x))

/-- The projection of a network config onto the fields propose requires to be
    identical across chains. -/
def proposeShouldBeEqual (c : NetworkConfig) :
    NewConfig × String × String × String :=
  (c.newConfig, c.safeAddress, c.moduleAddress, c.safeInitData)

/-- The approval leaves of the tree belonging to a given chain, as filtered by
    getProjectDeploymentForChain. -/
def approvalLeaves (merkleTree : SphinxMerkleTree) (chainId : Nat) :
    List SphinxLeafWithProof :=
  merkleTree.leavesWithProofs.filter
    (fun l => decide (l.leafType = SphinxLeafType.APPROVE ∧ l.chainId = chainId))

/-- getProjectDeploymentForChain from propose/index.ts: no approval leaf for
    the chain yields no project deployment, more than one is an error, and
    exactly one yields the deployment record keyed by the tree root. -/
def getProjectDeploymentForChain (merkleTree : SphinxMerkleTree)
    (networkConfig : NetworkConfig) :
    Except ProposeError (Option ProjectDeployment) :=
  let leaves := approvalLeaves merkleTree networkConfig.chainId
  if leaves.length = 0 then .ok none
  else if 1 < leaves.length then
    .error (.multipleApprovalLeaves networkConfig.chainId)
  else
    .ok (some { chainId := networkConfig.chainId,
                deploymentId := merkleTree.root,
                name := networkConfig.newConfig.projectName,
                isExecuting := networkConfig.initialState.isExecuting })

/-- The assembly loop of propose: chains without any action input are skipped;
    for the others the project deployment (when present), the chain status
    entry with one leaf per action plus the approval leaf, and the chain id
    are accumulated in order. -/
def proposeAssembleChains (merkleTree : SphinxMerkleTree) :
    List NetworkConfig →
    Except ProposeError (List ProjectDeployment × List ChainStatusEntry × List Nat)
  | [] => .ok ([], [], [])
  | cfg :: rest =>
    if cfg.actionInputs.isEmpty then proposeAssembleChains merkleTree rest
    else
      match getProjectDeploymentForChain merkleTree cfg with
      | .error e => .error e
      | .ok pd =>
        match proposeAssembleChains merkleTree rest with
        | .error e => .error e
        | .ok acc =>
          .ok ((match pd with | some d => d :: acc.1 | none => acc.1),
               { chainId := cfg.chainId, numLeaves := cfg.actionInputs.length + 1 } :: acc.2.1,
               cfg.chainId :: acc.2.2)

/-- propose from packages/plugins/src/cli/propose/index.ts, from the
    emptiness check onwards (compilation, spinner and prompt mechanics are
    elided; the Merkle tree builder, an external collaborator, is the
    `makeTree` parameter).  When every chain's action list is empty the
    command returns early with nothing built or relayed; otherwise the tree
    is built and simulated, the cross-chain consistency of the shared config
    fields is checked, the per-chain records are assembled, and unless this
    is a dry run the deployment config is stored and the proposal relayed. -/
def propose (makeTree : List NetworkConfig → SphinxMerkleTree) (isDryRun : Bool)
    (networkConfigArray : List NetworkConfig) :
    List ProposeEvent × Except ProposeError (Option ProposalRequest) :=
  if networkConfigArray.all (fun c => c.actionInputs.isEmpty) then
    ([], .ok none)
  else
    let merkleTree := makeTree networkConfigArray
    let ev₀ := [ProposeEvent.buildMerkleTree, ProposeEvent.simulateGasEstimates]
    if elementsEqual (networkConfigArray.map proposeShouldBeEqual) = false then
      (ev₀, .error .inconsistentConfig)
    else
      match proposeAssembleChains merkleTree networkConfigArray with
      | .error e => (ev₀, .error e)
      | .ok assembled =>
        let first := networkConfigArray.headD default
        let request : ProposalRequest :=
          { chainIds := assembled.2.2,
            deploymentName := first.newConfig.projectName,
            owners := first.newConfig.owners,
            threshold := first.newConfig.threshold,
            safeAddress := first.safeAddress,
            moduleAddress := first.moduleAddress,
            safeInitData := first.safeInitData,
            projectDeployments := assembled.1,
            treeRoot := merkleTree.root,
            chainStatus := assembled.2.1 }
        if isDryRun then (ev₀, .ok (some request))
        else
          (ev₀ ++ [ProposeEvent.storeDeploymentConfig, ProposeEvent.relayProposal],
           .ok (some request))

/-! ### monitorExecution (hardhat execution monitor) -/

/-- Bundle status enum of the ChugSplashManager. -/
inductive ChugSplashBundleStatus
  | EMPTY
  | PROPOSED
  | APPROVED
  | COMPLETED
  | CANCELLED
  deriving DecidableEq

/-- Bundle state polled from the ChugSplashManager. -/
structure ChugSplashBundleState where
  status : ChugSplashBundleStatus
  actionsExecuted : Nat
  deriving DecidableEq

/-- The distinct failure modes of monitorExecution. -/
inductive MonitorError
  | insufficientFunds (projectName : String) (amountToDeposit : Nat)
  | cancelled (projectName : String)
  deriving DecidableEq

/-- The value monitorExecution resolves with: the final deployment transaction
    hash on completion, or the implicit undefined of the fall-through branch. -/
inductive MonitorResult
  | txnHash (h : String)
  | undefinedResult
  deriving DecidableEq

/-- monitorExecution from the hardhat tasks: poll the bundle state while it is
    APPROVED, checking on every iteration that the manager holds enough funds
    (otherwise throw); once the status leaves APPROVED, return the final
    transaction hash when COMPLETED, throw a dedicated cancellation error when
    CANCELLED, and otherwise fall through, resolving with undefined.  The
    successive polls of the manager are the `polls` list; `none` is returned
    when the poll stream is exhausted while the loop is still waiting (the
    source would still be waiting at that point). -/
def monitorExecution (amountToDeposit : Nat → Nat) (finalDeploymentTxnHash : String)
    (projectName : String) :
    ChugSplashBundleState → List ChugSplashBundleState →
    Option (Except MonitorError MonitorResult)
  | st, polls =>
    if st.status = ChugSplashBundleStatus.APPROVED then
      if 0 < amountToDeposit st.actionsExecuted then
        some (.error (.insufficientFunds projectName (amountToDeposit st.actionsExecuted)))
      else
        match polls with
        | [] => none
        | st' :: rest => monitorExecution amountToDeposit finalDeploymentTxnHash projectName st' rest
    else if st.status = ChugSplashBundleStatus.COMPLETED then
      some (.ok (.txnHash finalDeploymentTxnHash))
    else if st.status = ChugSplashBundleStatus.CANCELLED then
      some (.error (.cancelled projectName))
    else
      some (.ok .undefinedResult)

/-! ### Concrete fixtures used by the witness theorems -/

/-- A concrete action input used by witnesses. -/
def c7Fixture : ActionInput :=
  { index := 7,
    decodedAction := { referenceName := "MyToken", functionName := "transfer",
                       vars := [TsVariable.lit "0xabc", TsVariable.lit "100"],
                       address := "0x11" } }

/-- A concrete Merkle tree builder used by witnesses. -/
def mkTreeFixture : List NetworkConfig → SphinxMerkleTree :=
  fun _ => { root := "root", leavesWithProofs := [] }

/-- A concrete shared project config used by witnesses. -/
def baseNewConfig : NewConfig :=
  { orgId := "org", projectName := "proj", owners := ["alice"], threshold := 1, saltNonce := 0 }

/-- A network config for chain 1 with no actions. -/
def cfgEmptyA : NetworkConfig :=
  { chainId := 1, actionInputs := [], newConfig := baseNewConfig,
    safeAddress := "safe", moduleAddress := "mod", safeInitData := "init",
    initialState := { isExecuting := false } }

/-- A network config for chain 2 with no actions and a different owner
    threshold than cfgEmptyA. -/
def cfgEmptyB : NetworkConfig :=
  { cfgEmptyA with chainId := 2, newConfig := { baseNewConfig with threshold := 2 } }

/-- A network config for chain 5 with one action. -/
def cfgOneAction : NetworkConfig :=
  { cfgEmptyA with chainId := 5, actionInputs := [0] }

/-- A network config for chain 6 with one action and a different owner
    threshold than cfgOneAction. -/
def cfgDivergeB : NetworkConfig :=
  { cfgOneAction with chainId := 6, newConfig := { baseNewConfig with threshold := 2 } }

/-- A Merkle tree holding exactly one approval leaf, for chain 5. -/
def treeOneApprove : SphinxMerkleTree :=
  { root := "root",
    leavesWithProofs := [{ leafType := SphinxLeafType.APPROVE, chainId := 5, index := 0 }] }

/-- A batch-size oracle that always returns 1, used by witnesses. -/
def wFindMax : List BundledSphinxAction → Nat → Nat := fun _ _ => 1

/-- A manager oracle whose batched calls always succeed, used by witnesses. -/
def wOutcomeOk : Nat → BatchOutcome :=
  fun _ => BatchOutcome.succeeded DeploymentStatus.APPROVED

/-- An approved entry state with no actions executed yet, used by witnesses. -/
def wEntry : DeploymentState :=
  { status := DeploymentStatus.APPROVED, actionsExecuted := 0 }

/-- A bundle with no auth leaves, used by witnesses. -/
def wEmptyBundle : BundleInfo :=
  { networkName := "anvil", configUri := "", authLeafs := [], actions := [],
    humanReadableActions := [] }

/-- A bundled action with the given type and index, used by witnesses. -/
def wAct (t : SphinxActionType) (i : Nat) : BundledSphinxAction :=
  { action := { actionType := t, index := i } }

/-- A bundle with one approval leaf, two initial actions, one set-storage
    action and matching human-readable reports, used by witnesses. -/
def wBundleMixed : BundleInfo :=
  { networkName := "anvil", configUri := "",
    authLeafs := [{ leaf := { index := 0 }, leafTypeEnum := AuthLeafType.APPROVE_DEPLOYMENT }],
    actions := [wAct SphinxActionType.DEPLOY_CONTRACT 0, wAct SphinxActionType.CALL 1,
                wAct SphinxActionType.SET_STORAGE 2],
    humanReadableActions := [{ reason := "MyToken.deploy()", actionIndex := 0 },
                             { reason := "MyToken.transfer(1)", actionIndex := 1 },
                             { reason := "MyToken.setStorage", actionIndex := 2 }] }

/-- A manager oracle whose batched calls always revert with failing action
    index 1, used by witnesses. -/
def wOutcomeRevert : Nat → BatchOutcome := fun _ => BatchOutcome.reverted 1

/-- An approved entry state with one action already executed. -/
def wEntryOne : DeploymentState :=
  { status := DeploymentStatus.APPROVED, actionsExecuted := 1 }

/-! ### Helper lemmas -/

theorem submittedActionIndices_append (l₁ l₂ : List Event) :
    submittedActionIndices (l₁ ++ l₂)
      = submittedActionIndices l₁ ++ submittedActionIndices l₂ := by
  induction l₁ with
  | nil => simp [submittedActionIndices]
  | cons e rest ih =>
    cases e <;> simp [submittedActionIndices, ih]

theorem submissionCount_append (l₁ l₂ : List Event) :
    submissionCount (l₁ ++ l₂) = submissionCount l₁ + submissionCount l₂ := by
  induction l₁ with
  | nil => simp [submissionCount]
  | cons e rest ih =>
    cases e <;> simp [submissionCount, ih] <;> omega

theorem monitorExecution_error_cases (amountToDeposit : Nat → Nat)
    (finalDeploymentTxnHash projectName : String) :
    ∀ polls st e,
      monitorExecution amountToDeposit finalDeploymentTxnHash projectName st polls
        = some (.error e) →
      e = .cancelled projectName
        ∨ ∃ k, 0 < k ∧ e = .insufficientFunds projectName k := by
  intro polls
  induction polls with
  | nil =>
    intro st e h
    rw [monitorExecution] at h
    by_cases h₁ : st.status = ChugSplashBundleStatus.APPROVED
    · simp only [h₁, if_true] at h
      by_cases h₂ : 0 < amountToDeposit st.actionsExecuted
      · simp only [h₂, if_true, Option.some.injEq, Except.error.injEq] at h
        exact Or.inr ⟨amountToDeposit st.actionsExecuted, h₂, h.symm⟩
      · simp [h₂] at h
    · simp only [h₁, if_false] at h
      by_cases h₂ : st.status = ChugSplashBundleStatus.COMPLETED
      · simp [h₂] at h
      · by_cases h₃ : st.status = ChugSplashBundleStatus.CANCELLED
        · simp [h₂, h₃] at h
          first
          | exact Or.inl h
          | exact Or.inl h.symm
        · simp [h₂, h₃] at h
  | cons st' rest ih =>
    intro st e h
    rw [monitorExecution] at h
    by_cases h₁ : st.status = ChugSplashBundleStatus.APPROVED
    · simp only [h₁, if_true] at h
      by_cases h₂ : 0 < amountToDeposit st.actionsExecuted
      · simp only [h₂, if_true, Option.some.injEq, Except.error.injEq] at h
        exact Or.inr ⟨amountToDeposit st.actionsExecuted, h₂, h.symm⟩
      · simp only [h₂, if_false] at h
        exact ih st' e h
    · simp only [h₁, if_false] at h
      by_cases h₂ : st.status = ChugSplashBundleStatus.COMPLETED
      · simp [h₂] at h
      · by_cases h₃ : st.status = ChugSplashBundleStatus.CANCELLED
        · simp [h₂, h₃] at h
          first
          | exact Or.inl h
          | exact Or.inl h.symm
        · simp [h₂, h₃] at h

/-! ### Claim C7 -/

/-- C7: getReadableActions renders, for every input list, each action's
    human-readable description from its decodedAction fields via
    prettyFunctionCall with truncation depth 5 and argument count 3, and pairs
    each description with exactly that action's index.  The function is a
    total Lean function of the input list, hence pure and defined for every
    input. -/
theorem c7_get_readable_actions (actionInputs : List ActionInput) :
    (getReadableActions actionInputs).length = actionInputs.length
    ∧ ∀ (i : Nat) (a : ActionInput), actionInputs[i]? = some a →
        (getReadableActions actionInputs)[i]?
          = some { reason := prettyFunctionCall a.decodedAction.referenceName
                     a.decodedAction.address a.decodedAction.functionName
                     a.decodedAction.vars 5 3,
                   actionIndex := a.index } := by
  constructor
  · simp [getReadableActions]
  · intro i a h
    simp [getReadableActions, List.getElem?_map, h]

/-- Witness for C7 at a concrete action input. -/
theorem c7_get_readable_actions_witness :
    (getReadableActions [c7Fixture])[0]?
      = some { reason := prettyFunctionCall c7Fixture.decodedAction.referenceName
                 c7Fixture.decodedAction.address c7Fixture.decodedAction.functionName
                 c7Fixture.decodedAction.vars 5 3,
               actionIndex := c7Fixture.index } :=
  (c7_get_readable_actions [c7Fixture]).2 0 c7Fixture rfl

/-! ### Claim C8 -/

/-- C8: getTargetAddress is exactly the composition of getCreate3Address with
    getCreate3Salt; getCreate3Salt hashes the ABI encoding of the reference
    name and user salt; getCreate3Address is the checksummed last 20 bytes of
    keccak256 of 0xd694, the CREATE2 address of the proxy, and 0x01; and the
    whole pipeline is a deterministic function of its inputs. -/
theorem c8_target_address_composition (keccak256 : Bytes → Bytes)
    (getAddress : Bytes → String) (abiEncode : String → Bytes → Bytes)
    (managerAddress : Bytes) (referenceName : String) (userSalt : Bytes) :
    getTargetAddress keccak256 getAddress abiEncode managerAddress referenceName userSalt
      = getCreate3Address keccak256 getAddress managerAddress
          (getCreate3Salt keccak256 abiEncode referenceName userSalt)
    ∧ getCreate3Salt keccak256 abiEncode referenceName userSalt
      = keccak256 (abiEncode referenceName userSalt)
    ∧ (∀ deployer salt, getCreate3Address keccak256 getAddress deployer salt
        = getAddress ((keccak256 ([0xd6, 0x94]
            ++ getCreate2Address keccak256 deployer salt (keccak256 proxyBytecode)
            ++ [0x01])).drop 12))
    ∧ (∀ m r s, m = managerAddress → r = referenceName → s = userSalt →
        getTargetAddress keccak256 getAddress abiEncode m r s
          = getTargetAddress keccak256 getAddress abiEncode
              managerAddress referenceName userSalt) := by
  refine ⟨rfl, rfl, fun _ _ => rfl, ?_⟩
  intro m r s hm hr hs
  rw [hm, hr, hs]

/-- Witness for C8 with concrete collaborator functions and inputs. -/
theorem c8_target_address_composition_witness :
    getTargetAddress (fun b => b) (fun _ => "checksummed") (fun _ b => b)
        [1, 2] "Ref" [3]
      = getTargetAddress (fun b => b) (fun _ => "checksummed") (fun _ b => b)
        [1, 2] "Ref" [3] :=
  (c8_target_address_composition (fun b => b) (fun _ => "checksummed")
    (fun _ b => b) [1, 2] "Ref" [3]).2.2.2 [1, 2] "Ref" [3] rfl rfl rfl

/-! ### Claim C10 -/

/-- C10: monitorExecution resolves with the implicit undefined value (not a
    transaction hash and not an error) whenever the observed bundle status is
    neither APPROVED on entry nor COMPLETED nor CANCELLED; while the status is
    APPROVED (and funds suffice) it keeps polling; it throws a dedicated
    cancellation error when the status is CANCELLED; and every error it can
    produce is either that cancellation error or the insufficient-funds
    error. -/
theorem c10_monitor_execution (amountToDeposit : Nat → Nat)
    (finalDeploymentTxnHash projectName : String)
    (st : ChugSplashBundleState) (polls : List ChugSplashBundleState) :
    (st.status ≠ ChugSplashBundleStatus.APPROVED →
     st.status ≠ ChugSplashBundleStatus.COMPLETED →
     st.status ≠ ChugSplashBundleStatus.CANCELLED →
       monitorExecution amountToDeposit finalDeploymentTxnHash projectName st polls
         = some (.ok .undefinedResult))
    ∧ (st.status = ChugSplashBundleStatus.CANCELLED →
        monitorExecution amountToDeposit finalDeploymentTxnHash projectName st polls
          = some (.error (.cancelled projectName)))
    ∧ (∀ st' rest, st.status = ChugSplashBundleStatus.APPROVED →
        amountToDeposit st.actionsExecuted = 0 → polls = st' :: rest →
        monitorExecution amountToDeposit finalDeploymentTxnHash projectName st polls
          = monitorExecution amountToDeposit finalDeploymentTxnHash projectName st' rest)
    ∧ (∀ e, monitorExecution amountToDeposit finalDeploymentTxnHash projectName st polls
          = some (.error e) →
        e = .cancelled projectName
          ∨ ∃ k, 0 < k ∧ e = .insufficientFunds projectName k) := by
  refine ⟨?_, ?_, ?_, fun e h => monitorExecution_error_cases _ _ _ polls st e h⟩
  · intro h₁ h₂ h₃
    cases polls <;> (rw [monitorExecution]; simp [h₁, h₂, h₃])
  · intro h₃
    cases polls <;> (rw [monitorExecution]; simp [h₃])
  · intro st' rest h₁ h₂ h₃
    subst h₃
    rw [monitorExecution]
    simp [h₁, h₂]

/-- Witness for C10: a bundle observed in the PROPOSED state resolves with the
    undefined fall-through value. -/
theorem c10_monitor_execution_witness :
    monitorExecution (fun _ => 0) "0xhash" "proj"
        { status := ChugSplashBundleStatus.PROPOSED, actionsExecuted := 0 } []
      = some (.ok .undefinedResult) :=
  (c10_monitor_execution (fun _ => 0) "0xhash" "proj"
      { status := ChugSplashBundleStatus.PROPOSED, actionsExecuted := 0 } []).1
    (by decide) (by decide) (by decide)

/-! ### Helper lemmas for the proposal assembler -/

theorem elementsEqual_true_iff {α : Type} [DecidableEq α] (l : List α) :
    elementsEqual l = true ↔ ∀ a ∈ l, ∀ b ∈ l, a = b := by
  cases l with
  | nil => simp [elementsEqual]
  | cons x xs =>
    simp only [elementsEqual, List.all_eq_true, decide_eq_true_eq]
    constructor
    · intro h a ha b hb
      have key : ∀ c ∈ x :: xs, c = x := by
        intro c hc
        rcases List.mem_cons.mp hc with rfl | hc
        · rfl
        · exact h c hc
      rw [key a ha, key b hb]
    · intro h y hy
      exact h y (List.mem_cons_of_mem x hy) x (List.mem_cons_self x xs)

theorem getProjectDeploymentForChain_of_no_leaf (tree : SphinxMerkleTree)
    (cfg : NetworkConfig) (h : approvalLeaves tree cfg.chainId = []) :
    getProjectDeploymentForChain tree cfg = .ok none := by
  simp [getProjectDeploymentForChain, h]

theorem getProjectDeploymentForChain_of_multiple (tree : SphinxMerkleTree)
    (cfg : NetworkConfig) (h : 1 < (approvalLeaves tree cfg.chainId).length) :
    getProjectDeploymentForChain tree cfg
      = .error (.multipleApprovalLeaves cfg.chainId) := by
  have h0 : ¬(approvalLeaves tree cfg.chainId).length = 0 := by omega
  simp [getProjectDeploymentForChain, h0, h]

theorem getProjectDeploymentForChain_some_chainId (tree : SphinxMerkleTree)
    (cfg : NetworkConfig) (d : ProjectDeployment)
    (h : getProjectDeploymentForChain tree cfg = .ok (some d)) :
    d.chainId = cfg.chainId := by
  unfold getProjectDeploymentForChain at h
  by_cases h0 : (approvalLeaves tree cfg.chainId).length = 0
  · simp [h0] at h
  · by_cases h1 : 1 < (approvalLeaves tree cfg.chainId).length
    · simp [h0, h1] at h
    · simp only [h0, h1, if_false, Except.ok.injEq, Option.some.injEq] at h
      rw [← h]

theorem getProjectDeploymentForChain_error_shape (tree : SphinxMerkleTree)
    (cfg : NetworkConfig) (e : ProposeError)
    (h : getProjectDeploymentForChain tree cfg = .error e) :
    e = .multipleApprovalLeaves cfg.chainId := by
  unfold getProjectDeploymentForChain at h
  by_cases h0 : (approvalLeaves tree cfg.chainId).length = 0
  · simp [h0] at h
  · by_cases h1 : 1 < (approvalLeaves tree cfg.chainId).length
    · simp only [h0, h1, if_false, if_true, Except.error.injEq] at h
      exact h.symm
    · simp [h0, h1] at h

theorem proposeAssembleChains_ok_spec (tree : SphinxMerkleTree) :
    ∀ (configs : List NetworkConfig) (pds : List ProjectDeployment)
      (cs : List ChainStatusEntry) (ids : List Nat),
      proposeAssembleChains tree configs = .ok (pds, cs, ids) →
      cs = (configs.filter (fun c => !c.actionInputs.isEmpty)).map
             (fun c => { chainId := c.chainId, numLeaves := c.actionInputs.length + 1 })
      ∧ ids = (configs.filter (fun c => !c.actionInputs.isEmpty)).map (fun c => c.chainId)
      ∧ ∀ pd ∈ pds, ∃ cfg, cfg ∈ configs ∧ cfg.actionInputs ≠ []
          ∧ pd.chainId = cfg.chainId := by
  intro configs
  induction configs with
  | nil =>
    intro pds cs ids h
    simp only [proposeAssembleChains, Except.ok.injEq, Prod.mk.injEq] at h
    obtain ⟨h1, h2, h3⟩ := h
    subst h1; subst h2; subst h3
    simp
  | cons cfg rest ih =>
    intro pds cs ids h
    rw [proposeAssembleChains] at h
    by_cases hemp : cfg.actionInputs.isEmpty
    · simp only [hemp, if_true] at h
      obtain ⟨h1, h2, h3⟩ := ih pds cs ids h
      refine ⟨?_, ?_, ?_⟩
      · rw [h1, List.filter_cons_of_neg (by simp [hemp])]
      · rw [h2, List.filter_cons_of_neg (by simp [hemp])]
      · intro pd hpd
        obtain ⟨c, hc, hcne, hcid⟩ := h3 pd hpd
        exact ⟨c, List.mem_cons_of_mem cfg hc, hcne, hcid⟩
    · simp only [hemp, if_false] at h
      have hne : cfg.actionInputs ≠ [] := by
        intro hnil
        exact hemp (by simp [hnil])
      cases hg : getProjectDeploymentForChain tree cfg with
      | error e => rw [hg] at h; simp at h
      | ok pd =>
        rw [hg] at h
        cases hr : proposeAssembleChains tree rest with
        | error e => rw [hr] at h; simp at h
        | ok acc =>
          rw [hr] at h
          injection h with h
          injection h with hA h
          injection h with hB hC
          obtain ⟨h1, h2, h3⟩ := ih acc.1 acc.2.1 acc.2.2 (by rw [hr])
          refine ⟨?_, ?_, ?_⟩
          · rw [← hB, h1, List.filter_cons_of_pos (by simp [hemp])]
            simp
          · rw [← hC, h2, List.filter_cons_of_pos (by simp [hemp])]
            simp
          · intro pd' hpd'
            rw [← hA] at hpd'
            cases pd with
            | none =>
              obtain ⟨c, hc, hcne, hcid⟩ := h3 pd' hpd'
              exact ⟨c, List.mem_cons_of_mem cfg hc, hcne, hcid⟩
            | some d =>
              rcases List.mem_cons.mp hpd' with rfl | hmem
              · exact ⟨cfg, List.mem_cons_self cfg rest, hne,
                  getProjectDeploymentForChain_some_chainId tree cfg pd' hg⟩
              · obtain ⟨c, hc, hcne, hcid⟩ := h3 pd' hmem
                exact ⟨c, List.mem_cons_of_mem cfg hc, hcne, hcid⟩

theorem proposeAssembleChains_error_shape (tree : SphinxMerkleTree) :
    ∀ (configs : List NetworkConfig) (e : ProposeError),
      proposeAssembleChains tree configs = .error e →
      ∃ c, e = ProposeError.multipleApprovalLeaves c := by
  intro configs
  induction configs with
  | nil => intro e h; simp [proposeAssembleChains] at h
  | cons cfg rest ih =>
    intro e h
    rw [proposeAssembleChains] at h
    by_cases hemp : cfg.actionInputs.isEmpty
    · simp only [hemp, if_true] at h
      exact ih e h
    · simp only [hemp, Bool.false_eq_true, if_false] at h
      cases hg : getProjectDeploymentForChain tree cfg with
      | error e' =>
        rw [hg] at h
        injection h with h
        subst h
        exact ⟨cfg.chainId, getProjectDeploymentForChain_error_shape tree cfg e' hg⟩
      | ok pd =>
        rw [hg] at h
        cases hr : proposeAssembleChains tree rest with
        | error e' =>
          rw [hr] at h
          injection h with h
          subst h
          exact ih e' hr
        | ok acc => rw [hr] at h; simp at h

/-! ### Claim C9 -/

/-- C9: for every chain included in a proposal (nonempty action list, one
    config per chain), the assembled chainStatus holds the entry with
    numLeaves equal to the action count plus one (the approval leaf), the
    chain id occurs exactly once in chainIds, and
    getProjectDeploymentForChain yields no deployment when the tree has no
    APPROVE leaf for the chain and an error when it has more than one. -/
theorem c9_chain_status_records (tree : SphinxMerkleTree)
    (configs : List NetworkConfig) (pds : List ProjectDeployment)
    (cs : List ChainStatusEntry) (ids : List Nat) (cfg : NetworkConfig)
    (hok : proposeAssembleChains tree configs = .ok (pds, cs, ids))
    (hnodup : (configs.map (fun c => c.chainId)).Nodup)
    (hmem : cfg ∈ configs) (hne : cfg.actionInputs ≠ []) :
    ({ chainId := cfg.chainId, numLeaves := cfg.actionInputs.length + 1 } : ChainStatusEntry) ∈ cs
    ∧ ids.count cfg.chainId = 1
    ∧ (approvalLeaves tree cfg.chainId = [] →
        getProjectDeploymentForChain tree cfg = .ok none)
    ∧ (1 < (approvalLeaves tree cfg.chainId).length →
        getProjectDeploymentForChain tree cfg
          = .error (.multipleApprovalLeaves cfg.chainId)) := by
  obtain ⟨hcs, hids, -⟩ := proposeAssembleChains_ok_spec tree configs pds cs ids hok
  have hfil : cfg ∈ configs.filter (fun c => !c.actionInputs.isEmpty) :=
    List.mem_filter.mpr ⟨hmem, by simp [hne]⟩
  refine ⟨?_, ?_, getProjectDeploymentForChain_of_no_leaf tree cfg,
    getProjectDeploymentForChain_of_multiple tree cfg⟩
  · rw [hcs]
    exact List.mem_map_of_mem _ hfil
  · rw [hids]
    have hsub : List.Sublist
        ((configs.filter (fun c => !c.actionInputs.isEmpty)).map (fun c => c.chainId))
        (configs.map (fun c => c.chainId)) :=
      (List.filter_sublist configs).map (fun c => c.chainId)
    have hnd := hnodup.sublist hsub
    have hmm : cfg.chainId
        ∈ (configs.filter (fun c => !c.actionInputs.isEmpty)).map (fun c => c.chainId) :=
      List.mem_map_of_mem _ hfil
    exact List.count_eq_one_of_mem hnd hmm

/-- Witness for C9: one chain with one action and one approval leaf. -/
theorem c9_chain_status_records_witness :
    ({ chainId := cfgOneAction.chainId,
       numLeaves := cfgOneAction.actionInputs.length + 1 } : ChainStatusEntry)
      ∈ [({ chainId := 5, numLeaves := 2 } : ChainStatusEntry)] :=
  (c9_chain_status_records treeOneApprove [cfgOneAction]
    [{ chainId := 5, deploymentId := "root", name := "proj", isExecuting := false }]
    [{ chainId := 5, numLeaves := 2 }] [5] cfgOneAction rfl
    (by decide) (by decide) (by decide)).1

/-! ### Claim C5 -/

/-- C5 counterexample: two per-chain configs that differ in the owner
    threshold but whose action lists are both empty make propose return
    successfully (skipping the proposal) instead of failing with an error, so
    the claim as stated does not hold without a nonemptiness proviso. -/
theorem c5_counterexample :
    proposeShouldBeEqual cfgEmptyA ≠ proposeShouldBeEqual cfgEmptyB
    ∧ propose mkTreeFixture false [cfgEmptyA, cfgEmptyB] = ([], .ok none) :=
  ⟨by decide, rfl⟩

/-- C5 (amended): provided at least one chain has a nonempty action list, any
    divergence between two per-chain configs in the fields expected to be
    identical (newConfig, Safe address, module address, Safe init data) makes
    propose fail with the cross-chain-consistency error before anything is
    relayed or stored; and when all those projections agree the consistency
    check passes. -/
theorem c5_cross_chain_consistency (makeTree : List NetworkConfig → SphinxMerkleTree)
    (isDryRun : Bool) (configs : List NetworkConfig)
    (hne : configs.all (fun c => c.actionInputs.isEmpty) = false) :
    (∀ c₁ ∈ configs, ∀ c₂ ∈ configs,
        proposeShouldBeEqual c₁ ≠ proposeShouldBeEqual c₂ →
        propose makeTree isDryRun configs
          = ([ProposeEvent.buildMerkleTree, ProposeEvent.simulateGasEstimates],
             .error ProposeError.inconsistentConfig)
        ∧ ProposeEvent.relayProposal ∉ (propose makeTree isDryRun configs).1
        ∧ ProposeEvent.storeDeploymentConfig ∉ (propose makeTree isDryRun configs).1)
    ∧ ((∀ c₁ ∈ configs, ∀ c₂ ∈ configs, proposeShouldBeEqual c₁ = proposeShouldBeEqual c₂) →
        (propose makeTree isDryRun configs).2 ≠ .error ProposeError.inconsistentConfig) := by
  constructor
  · intro c₁ h₁ c₂ h₂ hdiff
    have hfalse : elementsEqual (configs.map proposeShouldBeEqual) = false := by
      rcases Bool.eq_false_or_eq_true (elementsEqual (configs.map proposeShouldBeEqual)) with
        h | h
      · exact absurd ((elementsEqual_true_iff _).mp h _ (List.mem_map_of_mem _ h₁)
          _ (List.mem_map_of_mem _ h₂)) hdiff
      · exact h
    have hresult : propose makeTree isDryRun configs
        = ([ProposeEvent.buildMerkleTree, ProposeEvent.simulateGasEstimates],
           .error ProposeError.inconsistentConfig) := by
      simp [propose, hne, hfalse]
    refine ⟨hresult, ?_, ?_⟩ <;> rw [hresult] <;> decide
  · intro hall
    have htrue : elementsEqual (configs.map proposeShouldBeEqual) = true := by
      refine (elementsEqual_true_iff _).mpr ?_
      intro a ha b hb
      obtain ⟨c₁, h₁, rfl⟩ := List.mem_map.mp ha
      obtain ⟨c₂, h₂, rfl⟩ := List.mem_map.mp hb
      exact hall c₁ h₁ c₂ h₂
    rw [propose]
    simp only [hne, Bool.false_eq_true, if_false, htrue, Bool.true_eq_false]
    cases hA : proposeAssembleChains (makeTree configs) configs with
    | error e =>
      obtain ⟨c, rfl⟩ := proposeAssembleChains_error_shape _ configs e hA
      simp
    | ok acc =>
      cases isDryRun <;> simp

/-- Witness for C5 (amended): a nonempty chain plus a divergent chain make
    propose abort with the consistency error before relaying or storing. -/
theorem c5_cross_chain_consistency_witness :
    propose mkTreeFixture false [cfgOneAction, cfgDivergeB]
      = ([ProposeEvent.buildMerkleTree, ProposeEvent.simulateGasEstimates],
         .error ProposeError.inconsistentConfig)
    ∧ ProposeEvent.relayProposal
        ∉ (propose mkTreeFixture false [cfgOneAction, cfgDivergeB]).1
    ∧ ProposeEvent.storeDeploymentConfig
        ∉ (propose mkTreeFixture false [cfgOneAction, cfgDivergeB]).1 :=
  (c5_cross_chain_consistency mkTreeFixture false [cfgOneAction, cfgDivergeB]
    (by decide)).1 cfgOneAction (by decide) cfgDivergeB (by decide) (by decide)

/-! ### Claim C6 -/

/-- C6: a chain with no auth leaves makes sphinxDeployOnNetwork exit early
    with only a log message and a success result; every chainStatus, chainIds
    and projectDeployments record assembled by propose originates from a
    chain with a nonempty action list; and when every chain's action list is
    empty, propose returns early with no tree built and nothing relayed. -/
theorem c6_skip_empty_chains
    (findMax : List BundledSphinxAction → Nat → Nat)
    (outcomeInitial outcomeSetStorage : Nat → BatchOutcome)
    (entryInitial entrySetStorage deploymentState : DeploymentState)
    (leafsExecuted : Nat) (bundleInfo : BundleInfo) (blockGasLimit : Nat)
    (makeTree : List NetworkConfig → SphinxMerkleTree) (isDryRun : Bool)
    (tree : SphinxMerkleTree) (configs : List NetworkConfig)
    (pds : List ProjectDeployment) (cs : List ChainStatusEntry) (ids : List Nat) :
    (bundleInfo.authLeafs = [] →
      sphinxDeployOnNetwork findMax outcomeInitial outcomeSetStorage entryInitial
          entrySetStorage deploymentState leafsExecuted bundleInfo blockGasLimit
        = ([Event.logMessage ("Sphinx: Nothing to execute on " ++ bundleInfo.networkName
             ++ ". Exiting early.")], .ok ()))
    ∧ (proposeAssembleChains tree configs = .ok (pds, cs, ids) →
        (∀ e ∈ cs, ∃ cfg, cfg ∈ configs ∧ cfg.actionInputs ≠ []
            ∧ e = { chainId := cfg.chainId, numLeaves := cfg.actionInputs.length + 1 })
        ∧ (∀ i ∈ ids, ∃ cfg, cfg ∈ configs ∧ cfg.actionInputs ≠ [] ∧ i = cfg.chainId)
        ∧ (∀ pd ∈ pds, ∃ cfg, cfg ∈ configs ∧ cfg.actionInputs ≠ []
            ∧ pd.chainId = cfg.chainId))
    ∧ (configs.all (fun c => c.actionInputs.isEmpty) = true →
        propose makeTree isDryRun configs = ([], .ok none)) := by
  refine ⟨?_, ?_, ?_⟩
  · intro h
    simp [sphinxDeployOnNetwork, h]
  · intro hok
    obtain ⟨hcs, hids, hpds⟩ := proposeAssembleChains_ok_spec tree configs pds cs ids hok
    refine ⟨?_, ?_, hpds⟩
    · intro e he
      rw [hcs] at he
      obtain ⟨c, hc, rfl⟩ := List.mem_map.mp he
      obtain ⟨hcmem, hcne⟩ := List.mem_filter.mp hc
      exact ⟨c, hcmem, by simpa using hcne, rfl⟩
    · intro i hi
      rw [hids] at hi
      obtain ⟨c, hc, rfl⟩ := List.mem_map.mp hi
      obtain ⟨hcmem, hcne⟩ := List.mem_filter.mp hc
      exact ⟨c, hcmem, by simpa using hcne, rfl⟩
  · intro h
    simp [propose, h]

/-- Witness for C6: a bundle with no auth leaves exits early with a log. -/
theorem c6_skip_empty_chains_witness :
    sphinxDeployOnNetwork wFindMax wOutcomeOk wOutcomeOk wEntry wEntry wEntry 0
        wEmptyBundle 100
      = ([Event.logMessage ("Sphinx: Nothing to execute on "
           ++ wEmptyBundle.networkName ++ ". Exiting early.")], .ok ()) :=
  (c6_skip_empty_chains wFindMax wOutcomeOk wOutcomeOk wEntry wEntry wEntry 0
    wEmptyBundle 100 mkTreeFixture false treeOneApprove [] [] [] []).1 rfl

/-! ### Helper lemmas for the batch executor -/

theorem mem_take_map_index {r : List BundledSphinxAction} {k i : Nat}
    (h : i ∈ List.take k (List.map (fun a => a.action.index) r)) :
    ∃ a, a ∈ r ∧ a.action.index = i := by
  have h₂ : i ∈ List.map (fun a => a.action.index) r := List.take_subset _ _ h
  obtain ⟨a, ha, rfl⟩ := List.mem_map.mp h₂
  exact ⟨a, ha, rfl⟩

theorem execBatchLoop_submitted_mem (findMax : List BundledSphinxAction → Nat → Nat)
    (isSet : Bool) (bufferedGasLimit : Nat) :
    ∀ (fuel : Nat) (outcome : Nat → BatchOutcome) (remaining : List BundledSphinxAction)
      (st : DeploymentStatus) (i : Nat),
      i ∈ submittedActionIndices
          (execBatchLoop findMax isSet bufferedGasLimit fuel outcome remaining st).1 →
      ∃ a, a ∈ remaining ∧ a.action.index = i := by
  cases isSet <;>
  · intro fuel
    induction fuel with
    | zero => intro o r st i h; simp [execBatchLoop, submittedActionIndices] at h
    | succ fuel ih =>
      intro o r st i h
      rw [execBatchLoop] at h
      by_cases hrem : r.isEmpty
      · simp [hrem, submittedActionIndices] at h
      · simp only [hrem, Bool.false_eq_true, if_false] at h
        cases ho : o 0 with
        | reverted k =>
          rw [ho] at h
          simp [submittedActionIndices] at h
          exact mem_take_map_index h
        | succeeded stA =>
          rw [ho] at h
          by_cases hs : stA = DeploymentStatus.FAILED
          · simp [hs, submittedActionIndices] at h
            exact mem_take_map_index h
          · simp [hs, submittedActionIndices, submittedActionIndices_append] at h
            rcases h with h | h
            · exact mem_take_map_index h
            · obtain ⟨a, ha, rfl⟩ := ih _ _ _ _ h
              exact ⟨a, List.drop_subset _ _ ha, rfl⟩

theorem execBatchLoop_budget (findMax : List BundledSphinxAction → Nat → Nat)
    (isSet : Bool) (bufferedGasLimit : Nat) :
    ∀ (fuel : Nat) (outcome : Nat → BatchOutcome) (remaining : List BundledSphinxAction)
      (st : DeploymentStatus) (n b : Nat),
      Event.findMaxBatchSizeCall n b
          ∈ (execBatchLoop findMax isSet bufferedGasLimit fuel outcome remaining st).1 →
      b = bufferedGasLimit - bufferedGasLimit * 20 / 100 := by
  cases isSet <;>
  · intro fuel
    induction fuel with
    | zero => intro o r st n b h; simp [execBatchLoop] at h
    | succ fuel ih =>
      intro o r st n b h
      rw [execBatchLoop] at h
      by_cases hrem : r.isEmpty
      · simp [hrem] at h
      · simp only [hrem, Bool.false_eq_true, if_false] at h
        cases ho : o 0 with
        | reverted k =>
          rw [ho] at h
          simp at h
          exact h.2
        | succeeded stA =>
          rw [ho] at h
          by_cases hs : stA = DeploymentStatus.FAILED
          · simp [hs] at h
            exact h.2
          · simp [hs] at h
            rcases h with ⟨hn, hb⟩ | h
            · exact hb
            · exact ih _ _ _ _ _ h

theorem execBatchLoop_initial_events (findMax : List BundledSphinxAction → Nat → Nat)
    (bufferedGasLimit : Nat) :
    ∀ (fuel : Nat) (outcome : Nat → BatchOutcome) (remaining : List BundledSphinxAction)
      (st : DeploymentStatus) (e : Event),
      e ∈ (execBatchLoop findMax false bufferedGasLimit fuel outcome remaining st).1 →
      (∃ n b, e = Event.findMaxBatchSizeCall n b)
        ∨ ∃ indices, e = Event.executeInitialActionsCall indices := by
  intro fuel
  induction fuel with
  | zero => intro o r st e h; simp [execBatchLoop] at h
  | succ fuel ih =>
    intro o r st e h
    rw [execBatchLoop] at h
    by_cases hrem : r.isEmpty
    · simp [hrem] at h
    · simp only [hrem, Bool.false_eq_true, if_false] at h
      cases ho : o 0 with
      | reverted k =>
        rw [ho] at h
        simp at h
        rcases h with rfl | rfl
        · exact Or.inl ⟨_, _, rfl⟩
        · exact Or.inr ⟨_, rfl⟩
      | succeeded stA =>
        rw [ho] at h
        by_cases hs : stA = DeploymentStatus.FAILED
        · simp [hs] at h
          rcases h with rfl | rfl
          · exact Or.inl ⟨_, _, rfl⟩
          · exact Or.inr ⟨_, rfl⟩
        · simp [hs] at h
          rcases h with rfl | rfl | h
          · exact Or.inl ⟨_, _, rfl⟩
          · exact Or.inr ⟨_, rfl⟩
          · exact ih _ _ _ _ h

theorem authLeafLoop_events (leafsExecuted : Nat) :
    ∀ (leafs : List BundledAuthLeaf) (st : DeploymentStatus) (e : Event),
      e ∈ (authLeafLoop leafsExecuted st leafs).1 →
      ∃ t idx, e = Event.authLeafCall t idx ∧ leafsExecuted ≤ idx := by
  intro leafs
  induction leafs with
  | nil => intro st e h; simp [authLeafLoop] at h
  | cons l rest ih =>
    intro st e h
    rw [authLeafLoop] at h
    by_cases hskip : leafsExecuted > l.leaf.index
    · rw [if_pos hskip] at h
      exact ih _ e h
    · rw [if_neg hskip] at h
      simp at h
      rcases h with rfl | h
      · exact ⟨_, _, rfl, Nat.le_of_not_lt hskip⟩
      · exact ih _ e h

theorem sphinxExecuteBatchActions_submitted_ge
    (findMax : List BundledSphinxAction → Nat → Nat) (outcome : Nat → BatchOutcome)
    (entryState : DeploymentState) (bundledActions : List BundledSphinxAction)
    (isSet : Bool) (bufferedGasLimit : Nat) :
    ∀ i ∈ submittedActionIndices
        (sphinxExecuteBatchActions findMax outcome entryState bundledActions
          isSet bufferedGasLimit).1,
      entryState.actionsExecuted ≤ i := by
  intro i h
  rw [sphinxExecuteBatchActions] at h
  by_cases hf : (removeExecutedActions bundledActions entryState.actionsExecuted).isEmpty
  · simp [hf, submittedActionIndices] at h
  · simp only [hf, Bool.false_eq_true, if_false] at h
    obtain ⟨a, ha, rfl⟩ :=
      execBatchLoop_submitted_mem findMax isSet bufferedGasLimit _ _ _ _ i h
    have := List.mem_filter.mp ha
    simpa using this.2

/-! ### Claim C1 -/

/-- C1: re-invoking the batch executor on a state with actionsExecuted = n
    only ever submits actions whose index is at least n (so it never
    re-submits an action with index below n), and the auth-leaf loop never
    executes a leaf whose index is below the on-chain leafsExecuted count. -/
theorem c1_idempotent_resume
    (findMax : List BundledSphinxAction → Nat → Nat) (outcome : Nat → BatchOutcome)
    (entryState : DeploymentState) (bundledActions : List BundledSphinxAction)
    (isSetStorageActionArray : Bool) (bufferedGasLimit : Nat)
    (leafsExecuted : Nat) (st : DeploymentStatus) (authLeafs : List BundledAuthLeaf) :
    (∀ i ∈ submittedActionIndices
        (sphinxExecuteBatchActions findMax outcome entryState bundledActions
          isSetStorageActionArray bufferedGasLimit).1,
      entryState.actionsExecuted ≤ i)
    ∧ (∀ t idx, Event.authLeafCall t idx ∈ (authLeafLoop leafsExecuted st authLeafs).1 →
        leafsExecuted ≤ idx) := by
  constructor
  · exact sphinxExecuteBatchActions_submitted_ge findMax outcome entryState
      bundledActions isSetStorageActionArray bufferedGasLimit
  · intro t idx h
    obtain ⟨t', idx', heq, hle⟩ := authLeafLoop_events leafsExecuted authLeafs st _ h
    cases heq
    exact hle

/-- Witness for C1: resuming with actionsExecuted = 1 over actions 0, 1, 2
    submits index 1, which is not below the resume point. -/
theorem c1_idempotent_resume_witness :
    wEntryOne.actionsExecuted ≤ 1 :=
  (c1_idempotent_resume wFindMax wOutcomeOk wEntryOne
      [wAct SphinxActionType.DEPLOY_CONTRACT 0, wAct SphinxActionType.CALL 1,
       wAct SphinxActionType.CALL 2] false 100 0 DeploymentStatus.EMPTY []).1
    1 (by decide)

/-! ### Claim C2 -/

theorem sphinxExecuteBatchActions_budget
    (findMax : List BundledSphinxAction → Nat → Nat) (outcome : Nat → BatchOutcome)
    (entryState : DeploymentState) (bundledActions : List BundledSphinxAction)
    (isSet : Bool) (bufferedGasLimit : Nat) (n b : Nat)
    (h : Event.findMaxBatchSizeCall n b ∈ (sphinxExecuteBatchActions findMax outcome
        entryState bundledActions isSet bufferedGasLimit).1) :
    b = bufferedGasLimit - bufferedGasLimit * 20 / 100 := by
  rw [sphinxExecuteBatchActions] at h
  by_cases hf : (removeExecutedActions bundledActions entryState.actionsExecuted).isEmpty
  · simp [hf] at h
  · simp only [hf, Bool.false_eq_true, if_false] at h
    exact execBatchLoop_budget findMax isSet bufferedGasLimit _ _ _ _ n b h

theorem sphinxExecuteDeployment_budget
    (findMax : List BundledSphinxAction → Nat → Nat)
    (outcomeInitial outcomeSetStorage : Nat → BatchOutcome)
    (entryInitial entrySetStorage : DeploymentState)
    (bundleInfo : BundleInfo) (blockGasLimit : Nat) (n b : Nat)
    (h : Event.findMaxBatchSizeCall n b ∈ (sphinxExecuteDeployment findMax
        outcomeInitial outcomeSetStorage entryInitial entrySetStorage
        bundleInfo blockGasLimit).1) :
    b = ((blockGasLimit / 2) * 120) / 100
        - (((blockGasLimit / 2) * 120) / 100) * 20 / 100 := by
  rw [sphinxExecuteDeployment] at h
  simp only [] at h
  split at h
  · exact sphinxExecuteBatchActions_budget _ _ _ _ _ _ n b h
  · split at h
    · split at h
      · exact sphinxExecuteBatchActions_budget _ _ _ _ _ _ n b h
      · exact sphinxExecuteBatchActions_budget _ _ _ _ _ _ n b h
    · split at h
      · exact sphinxExecuteBatchActions_budget _ _ _ _ _ _ n b h
      · split at h
        · rcases List.mem_append.mp h with h' | h'
          · rcases List.mem_append.mp h' with h'' | h''
            · exact sphinxExecuteBatchActions_budget _ _ _ _ _ _ n b h''
            · simp at h''
          · exact sphinxExecuteBatchActions_budget _ _ _ _ _ _ n b h'
        · rcases List.mem_append.mp h with h' | h'
          · rcases List.mem_append.mp h' with h'' | h''
            · rcases List.mem_append.mp h'' with h₃ | h₃
              · exact sphinxExecuteBatchActions_budget _ _ _ _ _ _ n b h₃
              · simp at h₃
            · exact sphinxExecuteBatchActions_budget _ _ _ _ _ _ n b h''
          · simp at h'

theorem leafPhase_events (deploymentState : DeploymentState) (leafsExecuted : Nat)
    (leafs : List BundledAuthLeaf) (e : Event)
    (h : e ∈ (if deploymentState.status = DeploymentStatus.EMPTY then
        authLeafLoop leafsExecuted deploymentState.status leafs
      else ([], deploymentState.status)).1) :
    ∃ t idx, e = Event.authLeafCall t idx := by
  by_cases hd : deploymentState.status = DeploymentStatus.EMPTY
  · rw [if_pos hd] at h
    obtain ⟨t, idx, rfl, -⟩ := authLeafLoop_events leafsExecuted leafs _ e h
    exact ⟨t, idx, rfl⟩
  · rw [if_neg hd] at h
    simp at h

theorem sphinxDeployOnNetwork_trace_events
    (findMax : List BundledSphinxAction → Nat → Nat)
    (outcomeInitial outcomeSetStorage : Nat → BatchOutcome)
    (entryInitial entrySetStorage deploymentState : DeploymentState)
    (leafsExecuted : Nat) (bundleInfo : BundleInfo) (blockGasLimit : Nat) (e : Event)
    (h : e ∈ (sphinxDeployOnNetwork findMax outcomeInitial outcomeSetStorage
        entryInitial entrySetStorage deploymentState leafsExecuted bundleInfo
        blockGasLimit).1) :
    (∃ msg, e = Event.logMessage msg) ∨ e = Event.registerProjectCall
    ∨ (∃ t idx, e = Event.authLeafCall t idx)
    ∨ e ∈ (sphinxExecuteDeployment findMax outcomeInitial outcomeSetStorage
        entryInitial entrySetStorage bundleInfo blockGasLimit).1 := by
  rw [sphinxDeployOnNetwork] at h
  simp only [] at h
  split at h
  · simp at h
    exact Or.inl ⟨_, h⟩
  · split at h
    · simp at h
      rcases h with h | h
      · exact Or.inr (Or.inl h)
      · exact Or.inl ⟨_, h⟩
    · split at h
      · -- deploymentState.status = EMPTY : the auth leaves are executed
        split at h
        · -- execution branch
          split at h
          · simp only [List.cons_append, List.mem_cons, List.mem_append] at h
            rcases h with heq | h | h
            · exact Or.inr (Or.inl heq)
            · obtain ⟨t, idx, rfl, -⟩ := authLeafLoop_events _ _ _ _ h
              exact Or.inr (Or.inr (Or.inl ⟨t, idx, rfl⟩))
            · exact Or.inr (Or.inr (Or.inr h))
          · split at h <;>
            · simp only [List.cons_append, List.mem_cons, List.mem_append] at h
              rcases h with heq | h | h
              · exact Or.inr (Or.inl heq)
              · obtain ⟨t, idx, rfl, -⟩ := authLeafLoop_events _ _ _ _ h
                exact Or.inr (Or.inr (Or.inl ⟨t, idx, rfl⟩))
              · exact Or.inr (Or.inr (Or.inr h))
        · simp only [List.mem_cons] at h
          rcases h with heq | h
          · exact Or.inr (Or.inl heq)
          · obtain ⟨t, idx, rfl, -⟩ := authLeafLoop_events _ _ _ _ h
            exact Or.inr (Or.inr (Or.inl ⟨t, idx, rfl⟩))
      · -- deploymentState.status is not EMPTY : no auth leaves are executed
        split at h
        · split at h
          · simp only [List.cons_append, List.nil_append, List.mem_cons] at h
            rcases h with heq | h
            · exact Or.inr (Or.inl heq)
            · exact Or.inr (Or.inr (Or.inr h))
          · split at h <;>
            · simp only [List.cons_append, List.nil_append, List.mem_cons] at h
              rcases h with heq | h
              · exact Or.inr (Or.inl heq)
              · exact Or.inr (Or.inr (Or.inr h))
        · simp at h
          exact Or.inr (Or.inl h)

/-- C2: every gas budget handed to the batch-size search during deployment
    execution equals the buffered gas limit reduced by 20 percent, where the
    buffered gas limit is half the block gas limit scaled by 120 percent, all
    in integer arithmetic. -/
theorem c2_packer_gas_budget
    (findMax : List BundledSphinxAction → Nat → Nat)
    (outcomeInitial outcomeSetStorage : Nat → BatchOutcome)
    (entryInitial entrySetStorage deploymentState : DeploymentState)
    (leafsExecuted : Nat) (bundleInfo : BundleInfo) (blockGasLimit : Nat) (n b : Nat)
    (hmem : Event.findMaxBatchSizeCall n b ∈ (sphinxDeployOnNetwork findMax
        outcomeInitial outcomeSetStorage entryInitial entrySetStorage deploymentState
        leafsExecuted bundleInfo blockGasLimit).1) :
    b = ((blockGasLimit / 2) * 120) / 100
        - (((blockGasLimit / 2) * 120) / 100) * 20 / 100 := by
  rcases sphinxDeployOnNetwork_trace_events findMax outcomeInitial outcomeSetStorage
      entryInitial entrySetStorage deploymentState leafsExecuted bundleInfo
      blockGasLimit _ hmem with ⟨msg, heq⟩ | heq | ⟨t, idx, heq⟩ | h
  · simp at heq
  · simp at heq
  · simp at heq
  · exact sphinxExecuteDeployment_budget _ _ _ _ _ _ _ n b h

/-- Witness for C2: the budget observed in a concrete run with block gas
    limit 100 is 48, which is the claimed formula evaluated at 100. -/
theorem c2_packer_gas_budget_witness :
    (48 : Nat) = ((100 / 2) * 120) / 100 - (((100 / 2) * 120) / 100) * 20 / 100 :=
  c2_packer_gas_budget wFindMax wOutcomeOk wOutcomeOk wEntry wEntry wEntry 0
    wBundleMixed 100 2 48 (by decide)

/-! ### Claim C3 -/

theorem execBatchLoop_complete (findMax : List BundledSphinxAction → Nat → Nat)
    (isSet : Bool) (bufferedGasLimit : Nat)
    (hfm : ∀ l b, l ≠ [] → 1 ≤ findMax l b) :
    ∀ (fuel : Nat) (outcome : Nat → BatchOutcome) (remaining : List BundledSphinxAction)
      (st : DeploymentStatus),
      remaining.length + 1 ≤ fuel →
      (∀ k, ∃ s, outcome k = .succeeded s ∧ s ≠ DeploymentStatus.FAILED
        ∧ s ≠ DeploymentStatus.COMPLETED) →
      st ≠ DeploymentStatus.FAILED → st ≠ DeploymentStatus.COMPLETED →
      (∃ stF, (execBatchLoop findMax isSet bufferedGasLimit fuel outcome remaining st).2
          = .ok (stF, 0)
        ∧ stF ≠ DeploymentStatus.FAILED ∧ stF ≠ DeploymentStatus.COMPLETED)
      ∧ submittedActionIndices
          (execBatchLoop findMax isSet bufferedGasLimit fuel outcome remaining st).1
        = remaining.map (fun a => a.action.index) := by
  cases isSet <;>
  · intro fuel
    induction fuel with
    | zero =>
      intro o r st hle hoc hst₁ hst₂
      exact absurd hle (by omega)
    | succ fuel ih =>
      intro o r st hle hoc hst₁ hst₂
      rw [execBatchLoop]
      by_cases hrem : r.isEmpty
      · have hr : r = [] := by simpa using hrem
        subst hr
        exact ⟨⟨st, by simp [hrem], hst₁, hst₂⟩, by simp [hrem, submittedActionIndices]⟩
      · have hr : r ≠ [] := by simpa using hrem
        obtain ⟨s, hs, hsF, hsC⟩ := hoc 0
        have hk : 1 ≤ findMax r (bufferedGasLimit - bufferedGasLimit * 20 / 100) :=
          hfm r _ hr
        have hlen : (r.drop (findMax r (bufferedGasLimit - bufferedGasLimit * 20 / 100))).length
            + 1 ≤ fuel := by
          have hpos : 0 < r.length := List.length_pos.mpr hr
          simp only [List.length_drop]
          omega
        obtain ⟨⟨stF, h₂, hF, hC⟩, hsub⟩ := ih (fun n => o (n + 1))
          (r.drop (findMax r (bufferedGasLimit - bufferedGasLimit * 20 / 100))) s
          hlen (fun k => hoc (k + 1)) hsF hsC
        constructor
        · refine ⟨stF, ?_, hF, hC⟩
          simp [hrem, hs, hsF, h₂]
        · simp [hrem, hs, hsF, submittedActionIndices, submittedActionIndices_append, hsub,
            List.take_append_drop]

theorem sphinxExecuteBatchActions_complete
    (findMax : List BundledSphinxAction → Nat → Nat) (outcome : Nat → BatchOutcome)
    (entryState : DeploymentState) (bundledActions : List BundledSphinxAction)
    (isSet : Bool) (bufferedGasLimit : Nat)
    (hfm : ∀ l b, l ≠ [] → 1 ≤ findMax l b)
    (hoc : ∀ k, ∃ s, outcome k = .succeeded s ∧ s ≠ DeploymentStatus.FAILED
      ∧ s ≠ DeploymentStatus.COMPLETED)
    (hst₁ : entryState.status ≠ DeploymentStatus.FAILED)
    (hst₂ : entryState.status ≠ DeploymentStatus.COMPLETED) :
    (∃ stF, (sphinxExecuteBatchActions findMax outcome entryState bundledActions
        isSet bufferedGasLimit).2 = .ok (stF, 0)
      ∧ stF ≠ DeploymentStatus.FAILED ∧ stF ≠ DeploymentStatus.COMPLETED)
    ∧ submittedActionIndices (sphinxExecuteBatchActions findMax outcome entryState
        bundledActions isSet bufferedGasLimit).1
      = (removeExecutedActions bundledActions entryState.actionsExecuted).map
          (fun a => a.action.index) := by
  rw [sphinxExecuteBatchActions]
  by_cases hf : (removeExecutedActions bundledActions entryState.actionsExecuted).isEmpty
  · have hfe : removeExecutedActions bundledActions entryState.actionsExecuted = [] := by
      simpa using hf
    rw [hfe]
    exact ⟨⟨entryState.status, by simp, hst₁, hst₂⟩, by simp [submittedActionIndices]⟩
  · simp only [hf, Bool.false_eq_true, if_false]
    exact execBatchLoop_complete findMax isSet bufferedGasLimit hfm _ outcome _
      entryState.status (Nat.le_refl _) hoc hst₁ hst₂

/-- C3: on an approved but not yet completed chain, as long as every batched
    call succeeds without failing or completing early, the deployment
    executes in the fixed phase order: all initial-action batches, then
    exactly one initiateUpgrade call, then all set-storage batches, then
    exactly one finalizeUpgrade call; and within each phase the submitted
    action indices are exactly the phase's not-yet-executed actions in their
    original order, so batching only chooses boundaries and never reorders. -/
theorem c3_phase_order (findMax : List BundledSphinxAction → Nat → Nat)
    (outcomeInitial outcomeSetStorage : Nat → BatchOutcome)
    (entryInitial entrySetStorage : DeploymentState)
    (bundleInfo : BundleInfo) (blockGasLimit : Nat)
    (hfm : ∀ l b, l ≠ [] → 1 ≤ findMax l b)
    (ho₁ : ∀ k, ∃ s, outcomeInitial k = .succeeded s ∧ s ≠ DeploymentStatus.FAILED
      ∧ s ≠ DeploymentStatus.COMPLETED)
    (ho₂ : ∀ k, ∃ s, outcomeSetStorage k = .succeeded s ∧ s ≠ DeploymentStatus.FAILED
      ∧ s ≠ DeploymentStatus.COMPLETED)
    (he₁ : entryInitial.status ≠ DeploymentStatus.FAILED
      ∧ entryInitial.status ≠ DeploymentStatus.COMPLETED)
    (he₂ : entrySetStorage.status ≠ DeploymentStatus.FAILED
      ∧ entrySetStorage.status ≠ DeploymentStatus.COMPLETED) :
    sphinxExecuteDeployment findMax outcomeInitial outcomeSetStorage entryInitial
        entrySetStorage bundleInfo blockGasLimit
      = ((sphinxExecuteBatchActions findMax outcomeInitial entryInitial
            (splitActions bundleInfo.actions).1 false (((blockGasLimit / 2) * 120) / 100)).1
         ++ [Event.initiateUpgradeCall]
         ++ (sphinxExecuteBatchActions findMax outcomeSetStorage entrySetStorage
            (splitActions bundleInfo.actions).2 true (((blockGasLimit / 2) * 120) / 100)).1
         ++ [Event.finalizeUpgradeCall],
         .ok (true, emptyHumanReadableAction))
    ∧ submittedActionIndices (sphinxExecuteBatchActions findMax outcomeInitial entryInitial
          (splitActions bundleInfo.actions).1 false (((blockGasLimit / 2) * 120) / 100)).1
        = (removeExecutedActions (splitActions bundleInfo.actions).1
            entryInitial.actionsExecuted).map (fun a => a.action.index)
    ∧ submittedActionIndices (sphinxExecuteBatchActions findMax outcomeSetStorage
          entrySetStorage (splitActions bundleInfo.actions).2 true
          (((blockGasLimit / 2) * 120) / 100)).1
        = (removeExecutedActions (splitActions bundleInfo.actions).2
            entrySetStorage.actionsExecuted).map (fun a => a.action.index) := by
  obtain ⟨⟨st₁, h₁, h₁F, h₁C⟩, hsub₁⟩ := sphinxExecuteBatchActions_complete findMax
    outcomeInitial entryInitial (splitActions bundleInfo.actions).1 false
    (((blockGasLimit / 2) * 120) / 100) hfm ho₁ he₁.1 he₁.2
  obtain ⟨⟨st₂, h₂, h₂F, h₂C⟩, hsub₂⟩ := sphinxExecuteBatchActions_complete findMax
    outcomeSetStorage entrySetStorage (splitActions bundleInfo.actions).2 true
    (((blockGasLimit / 2) * 120) / 100) hfm ho₂ he₂.1 he₂.2
  refine ⟨?_, hsub₁, hsub₂⟩
  rw [sphinxExecuteDeployment]
  simp only [h₁, h₂, h₁F, h₁C]
  simp [h₁F, h₁C]

/-- Witness for C3: two initial actions and one set-storage action execute as
    initial batches, one initiateUpgrade, the storage batch, and one
    finalizeUpgrade, submitting indices 0, 1 and then 2 in order. -/
theorem c3_phase_order_witness :
    submittedActionIndices (sphinxExecuteBatchActions wFindMax wOutcomeOk wEntry
        (splitActions wBundleMixed.actions).1 false (((100 / 2) * 120) / 100)).1
      = (removeExecutedActions (splitActions wBundleMixed.actions).1
          wEntry.actionsExecuted).map (fun a => a.action.index) :=
  (c3_phase_order wFindMax wOutcomeOk wOutcomeOk wEntry wEntry wBundleMixed 100
    (fun _ _ _ => Nat.le_refl 1)
    (fun _ => ⟨DeploymentStatus.APPROVED, rfl, by decide, by decide⟩)
    (fun _ => ⟨DeploymentStatus.APPROVED, rfl, by decide, by decide⟩)
    ⟨by decide, by decide⟩ ⟨by decide, by decide⟩).2.1

/-! ### Claim C4 -/

theorem dropBatches_ne_nil_src (findMax : List BundledSphinxAction → Nat → Nat)
    (gasBudget : Nat) :
    ∀ (j : Nat) (l : List BundledSphinxAction),
      dropBatches findMax gasBudget j l ≠ [] → l ≠ [] := by
  intro j l h hl
  subst hl
  cases j <;> simp [dropBatches] at h

theorem execBatchLoop_revert (findMax : List BundledSphinxAction → Nat → Nat)
    (bufferedGasLimit : Nat)
    (hfm : ∀ l b, l ≠ [] → 1 ≤ findMax l b) :
    ∀ (j fuel : Nat) (outcome : Nat → BatchOutcome) (remaining : List BundledSphinxAction)
      (st : DeploymentStatus) (i : Nat),
      remaining.length + 1 ≤ fuel →
      (∀ k, k < j → ∃ s, outcome k = .succeeded s ∧ s ≠ DeploymentStatus.FAILED) →
      outcome j = .reverted i →
      dropBatches findMax (bufferedGasLimit - bufferedGasLimit * 20 / 100) j remaining ≠ [] →
      (execBatchLoop findMax false bufferedGasLimit fuel outcome remaining st).2
        = .ok (DeploymentStatus.FAILED, i)
      ∧ submissionCount
          (execBatchLoop findMax false bufferedGasLimit fuel outcome remaining st).1
        = j + 1 := by
  intro j
  induction j with
  | zero =>
    intro fuel o r st i hle hok hrev hreach
    have hr : r ≠ [] := by simpa [dropBatches] using hreach
    cases fuel with
    | zero => exact absurd hle (by omega)
    | succ fuel =>
      have hrem : ¬r.isEmpty = true := by simpa using hr
      rw [execBatchLoop]
      exact ⟨by simp [hrem, hrev], by simp [hrem, hrev, submissionCount]⟩
  | succ j ih =>
    intro fuel o r st i hle hok hrev hreach
    have hr : r ≠ [] := dropBatches_ne_nil_src findMax _ (j + 1) r hreach
    cases fuel with
    | zero => exact absurd hle (by omega)
    | succ fuel =>
      have hrem : ¬r.isEmpty = true := by simpa using hr
      obtain ⟨s, hs, hsF⟩ := hok 0 (Nat.succ_pos j)
      have hlen : (r.drop (findMax r (bufferedGasLimit - bufferedGasLimit * 20 / 100))).length
          + 1 ≤ fuel := by
        have hk : 1 ≤ findMax r (bufferedGasLimit - bufferedGasLimit * 20 / 100) := hfm r _ hr
        have hpos : 0 < r.length := List.length_pos.mpr hr
        simp only [List.length_drop]
        omega
      have hok' : ∀ k, k < j → ∃ s', (fun n => o (n + 1)) k = .succeeded s'
          ∧ s' ≠ DeploymentStatus.FAILED :=
        fun k hk' => hok (k + 1) (by omega)
      have hreach' : dropBatches findMax (bufferedGasLimit - bufferedGasLimit * 20 / 100) j
          (r.drop (findMax r (bufferedGasLimit - bufferedGasLimit * 20 / 100))) ≠ [] := by
        rw [dropBatches] at hreach
        simpa [hrem] using hreach
      obtain ⟨hres, hcount⟩ := ih fuel (fun n => o (n + 1))
        (r.drop (findMax r (bufferedGasLimit - bufferedGasLimit * 20 / 100))) s i
        hlen hok' hrev hreach'
      rw [execBatchLoop]
      constructor
      · simp [hrem, hs, hsF, hres]
      · simp [hrem, hs, hsF, submissionCount, submissionCount_append, hcount]

theorem sphinxExecuteBatchActions_revert
    (findMax : List BundledSphinxAction → Nat → Nat) (outcome : Nat → BatchOutcome)
    (entryState : DeploymentState) (bundledActions : List BundledSphinxAction)
    (bufferedGasLimit : Nat) (j i : Nat)
    (hfm : ∀ l b, l ≠ [] → 1 ≤ findMax l b)
    (hok : ∀ k, k < j → ∃ s, outcome k = .succeeded s ∧ s ≠ DeploymentStatus.FAILED)
    (hrev : outcome j = .reverted i)
    (hreach : dropBatches findMax (bufferedGasLimit - bufferedGasLimit * 20 / 100) j
        (removeExecutedActions bundledActions entryState.actionsExecuted) ≠ []) :
    (sphinxExecuteBatchActions findMax outcome entryState bundledActions false
        bufferedGasLimit).2 = .ok (DeploymentStatus.FAILED, i)
    ∧ submissionCount (sphinxExecuteBatchActions findMax outcome entryState bundledActions
        false bufferedGasLimit).1 = j + 1 := by
  have hfne : removeExecutedActions bundledActions entryState.actionsExecuted ≠ [] :=
    dropBatches_ne_nil_src findMax _ j _ hreach
  have hf : ¬(removeExecutedActions bundledActions entryState.actionsExecuted).isEmpty = true := by
    simpa using hfne
  rw [sphinxExecuteBatchActions]
  simp only [hf, Bool.false_eq_true, if_false]
  exact execBatchLoop_revert findMax bufferedGasLimit hfm j _ outcome _ entryState.status i
    (Nat.le_refl _) hok hrev hreach

theorem sphinxExecuteBatchActions_initial_events
    (findMax : List BundledSphinxAction → Nat → Nat) (outcome : Nat → BatchOutcome)
    (entryState : DeploymentState) (bundledActions : List BundledSphinxAction)
    (bufferedGasLimit : Nat) (e : Event)
    (h : e ∈ (sphinxExecuteBatchActions findMax outcome entryState bundledActions false
        bufferedGasLimit).1) :
    (∃ n b, e = Event.findMaxBatchSizeCall n b)
      ∨ ∃ indices, e = Event.executeInitialActionsCall indices := by
  rw [sphinxExecuteBatchActions] at h
  by_cases hf : (removeExecutedActions bundledActions entryState.actionsExecuted).isEmpty
  · simp [hf] at h
  · simp only [hf, Bool.false_eq_true, if_false] at h
    exact execBatchLoop_initial_events findMax bufferedGasLimit _ _ _ _ _ h

theorem sphinxExecuteDeployment_failed
    (findMax : List BundledSphinxAction → Nat → Nat)
    (outcomeInitial outcomeSetStorage : Nat → BatchOutcome)
    (entryInitial entrySetStorage : DeploymentState)
    (bundleInfo : BundleInfo) (blockGasLimit : Nat) (i : Nat)
    (h₁ : (sphinxExecuteBatchActions findMax outcomeInitial entryInitial
        (splitActions bundleInfo.actions).1 false (((blockGasLimit / 2) * 120) / 100)).2
      = .ok (DeploymentStatus.FAILED, i))
    (hidx : i < bundleInfo.humanReadableActions.length) :
    sphinxExecuteDeployment findMax outcomeInitial outcomeSetStorage entryInitial
        entrySetStorage bundleInfo blockGasLimit
      = ((sphinxExecuteBatchActions findMax outcomeInitial entryInitial
          (splitActions bundleInfo.actions).1 false (((blockGasLimit / 2) * 120) / 100)).1,
         .ok (false, bundleInfo.humanReadableActions.get ⟨i, hidx⟩)) := by
  rw [sphinxExecuteDeployment]
  simp only [h₁]
  simp [hidx]

theorem sphinxDeployOnNetwork_failed
    (findMax : List BundledSphinxAction → Nat → Nat)
    (outcomeInitial outcomeSetStorage : Nat → BatchOutcome)
    (entryInitial entrySetStorage deploymentState : DeploymentState)
    (leafsExecuted : Nat) (bundleInfo : BundleInfo) (blockGasLimit : Nat)
    (tr : List Event) (act : HumanReadableAction)
    (hleafs : bundleInfo.authLeafs ≠ [])
    (hst : deploymentState.status = DeploymentStatus.APPROVED)
    (hexec : sphinxExecuteDeployment findMax outcomeInitial outcomeSetStorage entryInitial
        entrySetStorage bundleInfo blockGasLimit = (tr, .ok (false, act))) :
    sphinxDeployOnNetwork findMax outcomeInitial outcomeSetStorage entryInitial
        entrySetStorage deploymentState leafsExecuted bundleInfo blockGasLimit
      = (Event.registerProjectCall :: tr,
         .error ("Sphinx: failed to execute deployment because the following action reverted: "
           ++ act.reason)) := by
  have h₁ : ¬bundleInfo.authLeafs.isEmpty = true := by simpa using hleafs
  rw [sphinxDeployOnNetwork]
  simp [h₁, hst, hexec]

/-- C4: if an initial-actions batch reverts (every earlier batch having
    succeeded), sphinxExecuteBatchActions returns status FAILED together with
    the failing action index decoded from the revert data, no further batch
    is submitted after the failing one, sphinxExecuteDeployment returns
    failure carrying the human-readable action stored at exactly that index,
    the network-level driver surfaces a revert message that appends that
    action's human-readable description, and no initiate-upgrade, set-storage
    or finalize-upgrade call is ever made. -/
theorem c4_failed_action_reporting
    (findMax : List BundledSphinxAction → Nat → Nat)
    (outcomeInitial outcomeSetStorage : Nat → BatchOutcome)
    (entryInitial entrySetStorage deploymentState : DeploymentState)
    (leafsExecuted : Nat) (bundleInfo : BundleInfo) (blockGasLimit : Nat) (j i : Nat)
    (hfm : ∀ l b, l ≠ [] → 1 ≤ findMax l b)
    (hok : ∀ k, k < j → ∃ s, outcomeInitial k = .succeeded s
      ∧ s ≠ DeploymentStatus.FAILED)
    (hrev : outcomeInitial j = .reverted i)
    (hreach : dropBatches findMax ((((blockGasLimit / 2) * 120) / 100)
        - (((blockGasLimit / 2) * 120) / 100) * 20 / 100) j
        (removeExecutedActions (splitActions bundleInfo.actions).1
          entryInitial.actionsExecuted) ≠ [])
    (hidx : i < bundleInfo.humanReadableActions.length)
    (hleafs : bundleInfo.authLeafs ≠ [])
    (hst : deploymentState.status = DeploymentStatus.APPROVED) :
    (sphinxExecuteBatchActions findMax outcomeInitial entryInitial
        (splitActions bundleInfo.actions).1 false (((blockGasLimit / 2) * 120) / 100)).2
      = .ok (DeploymentStatus.FAILED, i)
    ∧ sphinxExecuteDeployment findMax outcomeInitial outcomeSetStorage entryInitial
        entrySetStorage bundleInfo blockGasLimit
      = ((sphinxExecuteBatchActions findMax outcomeInitial entryInitial
          (splitActions bundleInfo.actions).1 false (((blockGasLimit / 2) * 120) / 100)).1,
         .ok (false, bundleInfo.humanReadableActions.get ⟨i, hidx⟩))
    ∧ (sphinxDeployOnNetwork findMax outcomeInitial outcomeSetStorage entryInitial
        entrySetStorage deploymentState leafsExecuted bundleInfo blockGasLimit).2
      = .error ("Sphinx: failed to execute deployment because the following action reverted: "
          ++ (bundleInfo.humanReadableActions.get ⟨i, hidx⟩).reason)
    ∧ Event.initiateUpgradeCall ∉ (sphinxDeployOnNetwork findMax outcomeInitial
        outcomeSetStorage entryInitial entrySetStorage deploymentState leafsExecuted
        bundleInfo blockGasLimit).1
    ∧ Event.finalizeUpgradeCall ∉ (sphinxDeployOnNetwork findMax outcomeInitial
        outcomeSetStorage entryInitial entrySetStorage deploymentState leafsExecuted
        bundleInfo blockGasLimit).1
    ∧ (∀ indices, Event.setStorageCall indices ∉ (sphinxDeployOnNetwork findMax
        outcomeInitial outcomeSetStorage entryInitial entrySetStorage deploymentState
        leafsExecuted bundleInfo blockGasLimit).1)
    ∧ submissionCount (sphinxExecuteBatchActions findMax outcomeInitial entryInitial
        (splitActions bundleInfo.actions).1 false (((blockGasLimit / 2) * 120) / 100)).1
      = j + 1 := by
  obtain ⟨h₁, hcount⟩ := sphinxExecuteBatchActions_revert findMax outcomeInitial
    entryInitial (splitActions bundleInfo.actions).1 (((blockGasLimit / 2) * 120) / 100)
    j i hfm hok hrev hreach
  have h₂ := sphinxExecuteDeployment_failed findMax outcomeInitial outcomeSetStorage
    entryInitial entrySetStorage bundleInfo blockGasLimit i h₁ hidx
  have h₃ := sphinxDeployOnNetwork_failed findMax outcomeInitial outcomeSetStorage
    entryInitial entrySetStorage deploymentState leafsExecuted bundleInfo blockGasLimit
    _ _ hleafs hst h₂
  have hphase : ∀ e ∈ (sphinxDeployOnNetwork findMax outcomeInitial outcomeSetStorage
      entryInitial entrySetStorage deploymentState leafsExecuted bundleInfo
      blockGasLimit).1,
      e = Event.registerProjectCall
      ∨ (∃ n b, e = Event.findMaxBatchSizeCall n b)
      ∨ ∃ indices, e = Event.executeInitialActionsCall indices := by
    intro e he
    rw [h₃] at he
    rcases List.mem_cons.mp he with heq | he
    · exact Or.inl heq
    · exact Or.inr (sphinxExecuteBatchActions_initial_events findMax outcomeInitial
        entryInitial (splitActions bundleInfo.actions).1
        (((blockGasLimit / 2) * 120) / 100) e he)
  refine ⟨h₁, h₂, by rw [h₃], ?_, ?_, ?_, hcount⟩
  · intro hmem
    rcases hphase _ hmem with heq | ⟨n, b, heq⟩ | ⟨indices, heq⟩ <;> simp at heq
  · intro hmem
    rcases hphase _ hmem with heq | ⟨n, b, heq⟩ | ⟨indices, heq⟩ <;> simp at heq
  · intro indices hmem
    rcases hphase _ hmem with heq | ⟨n, b, heq⟩ | ⟨indices', heq⟩ <;> simp at heq

/-- Witness for C4: the first batch reverts with failing index 1, and the
    batch executor reports FAILED together with that index. -/
theorem c4_failed_action_reporting_witness :
    (sphinxExecuteBatchActions wFindMax wOutcomeRevert wEntry
        (splitActions wBundleMixed.actions).1 false (((100 / 2) * 120) / 100)).2
      = .ok (DeploymentStatus.FAILED, 1) :=
  (c4_failed_action_reporting wFindMax wOutcomeRevert wOutcomeOk wEntry wEntry wEntry 0
    wBundleMixed 100 0 1 (fun _ _ _ => Nat.le_refl 1)
    (fun k hk => absurd hk (Nat.not_lt_zero k)) rfl (by decide) (by decide)
    (by decide) rfl).1

end Chugsplash
